import Mathlib

/-!
Verification of the relay record-store mutation engine (record source,
transactional mutator with undo log, and proxy layer).

The repository ships the test suite for `RelayRecordSourceProxy`
(`src/unnamed/part_000`) but not the implementation files it exercises
(`RelayRecordSourceMutator.js`, `RelayRecordProxy.js`,
`RelayRecordSourceProxy.js`, `RelayStoreUtils.js`).  The definitions below
are therefore modelled from the specification, with the repository's own
test expectations taken as the authority wherever they pin down observable
behaviour (for example the shape of sink and backup after the
"combines operations" sequence).
-/

namespace Relay

/-- Modelled from the spec: a Scalar is any JSON-representable leaf,
including null. -/
inductive Scalar where
  | null
  | str (s : String)
  | int (n : Int)
  | bool (b : Bool)
deriving DecidableEq, Repr

/-- Modelled from the spec: a Field Value is a Scalar, an array of scalars,
a plain keyed object (invalid as a scalar-field value, kept here so the
InvalidFieldValue contract can be stated), a single reference
(`\x7b__ref: id\x7d` in the JS representation), a reference list
(`\x7b__refs: ids\x7d`, entries may be null), or the reserved
"unpublish field" sentinel used in backup records. -/
inductive Value where
  | scalar (s : Scalar)
  | list (vs : List Scalar)
  | obj (fields : List (String × Scalar))
  | ref (id : String)
  | refs (ids : List (Option String))
  | sentinel
deriving DecidableEq, Repr

/-- JSON-style rendering of a scalar. -/
def jsonOfScalar : Scalar → String
  | .null => "null"
  | .str s => "\"" ++ s ++ "\""
  | .int n => toString n
  | .bool b => if b then "true" else "false"

/-- JSON rendering of a comma-separated scalar list. -/
def jsonOfList : List Scalar → String
  | [] => ""
  | [v] => jsonOfScalar v
  | v :: rest => jsonOfScalar v ++ "," ++ jsonOfList rest

/-- JSON rendering of the members of a plain object. -/
def jsonOfObj : List (String × Scalar) → String
  | [] => ""
  | [(k, v)] => "\"" ++ k ++ "\":" ++ jsonOfScalar v
  | (k, v) :: rest => "\"" ++ k ++ "\":" ++ jsonOfScalar v ++ "," ++ jsonOfObj rest

/-- Modelled from the spec: JSON-style rendering of a value, used in the
InvalidFieldValue error message (the missing `RelayRecordProxy.js` renders
the offending value with JSON.stringify). -/
def jsonOf : Value → String
  | .scalar s => jsonOfScalar s
  | .list vs => "[" ++ jsonOfList vs ++ "]"
  | .obj fs => "\x7b" ++ jsonOfObj fs ++ "\x7d"
  | .ref id => "\x7b\"__ref\":\"" ++ id ++ "\"\x7d"
  | .refs _ => "\x7b\"__refs\":[]\x7d"
  | .sentinel => "\x7b\"__unpublish_field\":true\x7d"

/-- Association-list lookup keyed by strings; the first binding wins, which
matches JS object property access. -/
def entryGet {α : Type} : List (String × α) → String → Option α
  | [], _ => none
  | (k', v') :: rest, k => if k' = k then some v' else entryGet rest k

/-- Association-list update: overwrites the binding in place if the key is
present, otherwise appends it, matching JS object insertion order. -/
def entrySet {α : Type} : List (String × α) → String → α → List (String × α)
  | [], k, v => [(k, v)]
  | (k', v') :: rest, k, v =>
      if k' = k then (k, v) :: rest else (k', v') :: entrySet rest k v

/-- Association-list removal of a key (JS `delete obj[k]`). -/
def entryRemove {α : Type} : List (String × α) → String → List (String × α)
  | [], _ => []
  | (k', v') :: rest, k =>
      if k' = k then entryRemove rest k else (k', v') :: entryRemove rest k

/-- Modelled from the spec: a Record maps Storage Keys to Field Values and
carries the two reserved write-once keys, identity (`__id`) and type name
(`__typename`), separately. -/
structure Record where
  id : String
  typename : String
  fields : List (String × Value)
deriving DecidableEq, Repr

/-- Field read on a record (reserved keys excluded). -/
def getField (r : Record) (key : String) : Option Value :=
  entryGet r.fields key

/-- Field write on a record (reserved keys excluded). -/
def setField (r : Record) (key : String) (v : Value) : Record :=
  { r with fields := entrySet r.fields key v }

/-- Modelled from the spec: a Record Source maps a Data ID to a Record
(present), `none` inside the entry (explicit tombstone), or no entry at all
(unknown, never fetched). -/
abbrev RecordSource : Type := List (String × Option Record)

/-- Three-state lookup of a Record Source. -/
def rsGet (rs : RecordSource) (id : String) : Option (Option Record) :=
  entryGet rs id

/-- Record Source update. -/
def rsSet (rs : RecordSource) (id : String) (e : Option Record) : RecordSource :=
  entrySet rs id e

/-- Modelled from the spec: `serialize()` exposes the plain id-to-record
mapping of a Record Source (tombstones included). -/
def serializeSource (rs : RecordSource) : String → Option (Option Record) :=
  fun id => rsGet rs id

/-- Reserved root identity (RelayStoreUtils.ROOT_ID). -/
def ROOT_ID : String := "client:root"

/-- Reserved root type name (RelayStoreUtils.ROOT_TYPE). -/
def ROOT_TYPE : String := "__Root"

/-- Modelled from the spec: the per-identity status visible through the
Mutator. -/
inductive RecordState where
  | existent
  | nonexistent
  | unknown
deriving DecidableEq, Repr

/-- Status of one Record Source entry. -/
def recordStatus : Option (Option Record) → RecordState
  | none => .unknown
  | some none => .nonexistent
  | some (some _) => .existent

/-- Modelled from the spec: the contract-violation failures of the mutation
engine. -/
inductive StoreError where
  | duplicateRecord (id : String)
  | rootDeletion
  | invalidFieldValue (v : Value)
  | missingRecord (id : String)
deriving DecidableEq, Repr

/-- Error messages as asserted by the repository's tests. -/
def errorMessage : StoreError → String
  | .duplicateRecord id =>
      "RelayRecordSourceMutator#create(): Cannot create a record with id `"
        ++ id ++ "`, this record already exists."
  | .rootDeletion =>
      "RelayRecordSourceProxy#delete(): Cannot delete the root record."
  | .invalidFieldValue v =>
      "RelayRecordProxy#setValue(): Expected a scalar or array of scalars, got `"
        ++ jsonOf v ++ "`."
  | .missingRecord id =>
      "RelayRecordSourceMutator: Expected record `" ++ id ++ "` to exist."

/-- Modelled from the spec: the transaction state — the (base, sink, backup)
Record Source triple of the Mutator plus the Record Source Proxy's
transaction-scoped identity-to-proxy cache.  A cache entry of `none` is a
cached `null` result; `some pid` is a cached Record Proxy, represented by
its identity. -/
structure Store where
  base : RecordSource
  sink : RecordSource
  backup : RecordSource
  cache : List (String × Option String)
deriving Repr

/-- Modelled from the spec: Mutator `getStatus` reads sink if it has an
entry, else base. -/
def mutGetStatus (s : Store) (id : String) : RecordState :=
  match rsGet s.sink id with
  | some e => recordStatus (some e)
  | none => recordStatus (rsGet s.base id)

/-- Modelled from the spec: Mutator `getValue` reads the field from sink;
if the sink record lacks the field, falls back to base; a tombstone stops
the walk. -/
def mutGetValue (s : Store) (id key : String) : Option Value :=
  match rsGet s.sink id with
  | some none => none
  | some (some r) =>
      match getField r key with
      | some v => some v
      | none =>
          match rsGet s.base id with
          | some (some rb) => getField rb key
          | _ => none
  | none =>
      match rsGet s.base id with
      | some (some rb) => getField rb key
      | _ => none

/-- Modelled from the spec: Mutator `getType` reads the type name from the
sink-else-base merged view. -/
def mutGetType (s : Store) (id : String) : Option String :=
  match rsGet s.sink id with
  | some none => none
  | some (some r) => some r.typename
  | none =>
      match rsGet s.base id with
      | some (some rb) => some rb.typename
      | _ => none

/-- Modelled from the spec (pinned by the repository's backup assertions):
the undo-log population step — on the first touch of an identity this
transaction, if the identity pre-exists in base the whole base Record is
captured into backup; if base holds a tombstone, a tombstone is recorded. -/
def backupAfterTouch (base backup : RecordSource) (id : String) : RecordSource :=
  match rsGet backup id with
  | some _ => backup
  | none =>
      match rsGet base id with
      | some (some r) => rsSet backup id (some r)
      | some none => rsSet backup id none
      | none => backup

/-- First-touch backup capture, lifted to the transaction state. -/
def createBackupRecord (s : Store) (id : String) : Store :=
  { s with backup := backupAfterTouch s.base s.backup id }

/-- Modelled from the spec: after writing a field into sink, if the backed-up
record does not carry that field (it did not exist in base), the field is
marked in backup with the "unpublish field" sentinel, directing rollback to
delete it. -/
def backupSentinel (backup : RecordSource) (id key : String) : RecordSource :=
  match rsGet backup id with
  | some (some b) =>
      if (getField b key).isSome then backup
      else rsSet backup id (some (setField b key Value.sentinel))
  | _ => backup

/-- Sentinel marking, lifted to the transaction state. -/
def setBackupSentinel (s : Store) (id key : String) : Store :=
  { s with backup := backupSentinel s.backup id key }

/-- Modelled from the spec: the sink record an imminent field write targets —
the existing sink record if any, else a fresh record carrying only identity
and the base record's type name; fails if the identity has a record in
neither sink nor base. -/
def getSinkRecord (s : Store) (id : String) : Except StoreError (Store × Record) :=
  match rsGet s.sink id with
  | some (some r) => .ok (s, r)
  | _ =>
      match rsGet s.base id with
      | some (some rb) =>
          let fresh : Record := { id := id, typename := rb.typename, fields := [] }
          .ok ({ s with sink := rsSet s.sink id (some fresh) }, fresh)
      | _ => .error (.missingRecord id)

/-- Modelled from the spec: Mutator `setValue` — capture backup on first
touch, write the field into the sink record, then mark the field with the
unpublish sentinel in backup if it did not pre-exist there. -/
def mutSetValue (s : Store) (id key : String) (v : Value) : Store × Option StoreError :=
  match getSinkRecord (createBackupRecord s id) id with
  | .error e => (createBackupRecord s id, some e)
  | .ok (s2, r) =>
      (setBackupSentinel { s2 with sink := rsSet s2.sink id (some (setField r key v)) } id key,
        none)

/-- Modelled from the spec: Mutator `create` fails with DuplicateRecord when
the merged status is Existent, otherwise writes a fresh Record with only
identity and type into sink (a new identity needs no backup). -/
def mutCreate (s : Store) (id type : String) : Store × Option StoreError :=
  if mutGetStatus s id = .existent then (s, some (.duplicateRecord id))
  else
    ({ s with sink := rsSet s.sink id (some { id := id, typename := type, fields := [] }) },
      none)

/-- Modelled from the spec: Mutator `delete` — capture backup on first touch,
then write a tombstone into sink. -/
def mutDelete (s : Store) (id : String) : Store :=
  { createBackupRecord s id with sink := rsSet (createBackupRecord s id).sink id none }

/-- Field arguments: a mapping from argument name to a scalar value. -/
abbrev Args : Type := List (String × Scalar)

/-- Insert one argument into a list kept sorted by argument name. -/
def insertArg (a : String × Scalar) : Args → Args
  | [] => [a]
  | b :: rest => if a.1 ≤ b.1 then a :: b :: rest else b :: insertArg a rest

/-- Sort arguments by argument name (insertion sort). -/
def sortArgs : Args → Args
  | [] => []
  | a :: rest => insertArg a (sortArgs rest)

/-- Render one canonicalized argument as `name:json`. -/
def formatArg (a : String × Scalar) : String :=
  a.1 ++ ":" ++ jsonOfScalar a.2

/-- Comma-join the rendered arguments. -/
def formatArgList : Args → String
  | [] => ""
  | [a] => formatArg a
  | a :: rest => formatArg a ++ "," ++ formatArgList rest

/-- Modelled from the spec: the Storage Key of a field is its name alone
when read without arguments, else the name followed by the canonical
(name-sorted) parenthesized serialization of the arguments, for example
`address(location:"WORK")`. -/
def formatStorageKey (name : String) (args : Args) : String :=
  match args with
  | [] => name
  | _ => name ++ "(" ++ formatArgList (sortArgs args) ++ ")"

/-- Modelled from the spec: a scalar-field write accepts a scalar or an
array; it rejects non-array keyed objects (plain objects, references,
reference lists, and the sentinel are all objects in the JS
representation). -/
def validFieldValue : Value → Bool
  | .scalar _ => true
  | .list _ => true
  | .obj _ => false
  | .ref _ => false
  | .refs _ => false
  | .sentinel => false

/-- Modelled from the spec: Record Proxy `setValue` derives the Storage Key
from the field name and arguments, rejects invalid values with
InvalidFieldValue, and otherwise delegates to the Mutator. -/
def proxySetValue (s : Store) (id : String) (v : Value) (name : String)
    (args : Args) : Store × Option StoreError :=
  if validFieldValue v then mutSetValue s id (formatStorageKey name args) v
  else (s, some (.invalidFieldValue v))

/-- Modelled from the spec: Record Proxy `getValue` delegates to the Mutator
at the derived Storage Key. -/
def proxyGetValue (s : Store) (id name : String) (args : Args) : Option Value :=
  mutGetValue s id (formatStorageKey name args)

/-- Modelled from the spec: Mutator `getLinkedRecordID` — `none` when the
field is unknown, `some none` for an explicit null link, `some (some tid)`
for a reference. -/
def mutGetLinkedRecordID (s : Store) (id key : String) : Option (Option String) :=
  match mutGetValue s id key with
  | none => none
  | some (.scalar .null) => some none
  | some (.ref tid) => some (some tid)
  | some _ => none

/-- Modelled from the spec: the result of a Record Source Proxy lookup —
no proxy for never-fetched identities, null for tombstones, or a Record
Proxy (represented by its identity). -/
inductive GetResult where
  | unknownRec
  | nullRec
  | proxy (id : String)
deriving DecidableEq, Repr

/-- Modelled from the spec: Record Source Proxy `get` — returns the cached
entry when present; otherwise queries the Mutator status: Existent creates
and caches a proxy, Nonexistent caches and returns null, Unknown returns no
proxy and leaves no cache entry. -/
def storeGet (s : Store) (id : String) : Store × GetResult :=
  match entryGet s.cache id with
  | some none => (s, .nullRec)
  | some (some pid) => (s, .proxy pid)
  | none =>
      match mutGetStatus s id with
      | .existent => ({ s with cache := entrySet s.cache id (some id) }, .proxy id)
      | .nonexistent => ({ s with cache := entrySet s.cache id none }, .nullRec)
      | .unknown => (s, .unknownRec)

/-- Modelled from the spec: Record Source Proxy `create` delegates to the
Mutator (propagating DuplicateRecord), evicts any stale cache entry for the
identity, and returns a fresh proxy via `get`. -/
def storeCreate (s : Store) (id type : String) : Store × Except StoreError GetResult :=
  match mutCreate s id type with
  | (s1, some e) => (s1, .error e)
  | (s1, none) =>
      ((storeGet { s1 with cache := entryRemove s1.cache id } id).1,
        .ok (storeGet { s1 with cache := entryRemove s1.cache id } id).2)

/-- Modelled from the spec: Record Source Proxy `delete` fails with
RootDeletion on the reserved root identity; otherwise it evicts the cache
entry and delegates to the Mutator, so a subsequent `get` returns null. -/
def storeDelete (s : Store) (id : String) : Store × Option StoreError :=
  if id = ROOT_ID then (s, some .rootDeletion)
  else (mutDelete { s with cache := entryRemove s.cache id } id, none)

/-- Modelled from the spec: Record Proxy `getLinkedRecord` reads the linked
identity through the Mutator and resolves it through the Record Source
Proxy. -/
def proxyGetLinkedRecord (s : Store) (id name : String) (args : Args) :
    Store × GetResult :=
  match mutGetLinkedRecordID s id (formatStorageKey name args) with
  | none => (s, .unknownRec)
  | some none => (s, .nullRec)
  | some (some tid) => storeGet s tid

/-- Modelled from the spec: Record Proxy `setLinkedRecord` stores the target
proxy's identity as a Reference under the derived Storage Key, with the
Mutator's backup-then-write discipline. -/
def proxySetLinkedRecord (s : Store) (id target name : String) (args : Args) :
    Store × Option StoreError :=
  mutSetValue s id (formatStorageKey name args) (.ref target)

/-- Modelled from the spec: Record Proxy `setLinkedRecords` stores an ordered
Reference List (entries may be null) under the derived Storage Key. -/
def proxySetLinkedRecords (s : Store) (id : String) (targets : List (Option String))
    (name : String) (args : Args) : Store × Option StoreError :=
  mutSetValue s id (formatStorageKey name args) (.refs targets)

/-- Modelled from the spec: the deterministic client identity for a
client-only linked record, derived from the parent identity and the derived
storage key. -/
def clientIDFor (parent key : String) : String :=
  parent ++ ":" ++ key

/-- Modelled from the spec: Record Proxy `getOrCreateLinkedRecord` — if the
field currently links to a resolvable record, return its proxy; otherwise
derive the deterministic client identity from (parent identity, storage
key), reattach the record at that identity if one already exists, else
create it, and in either case link the field to it. -/
def getOrCreateLinkedRecord (s : Store) (id name type : String) (args : Args) :
    Store × Except StoreError String :=
  match proxyGetLinkedRecord s id name args with
  | (s1, .proxy pid) => (s1, .ok pid)
  | (s1, _) =>
      match storeGet s1 (clientIDFor id (formatStorageKey name args)) with
      | (s2, .proxy pid) =>
          match mutSetValue s2 id (formatStorageKey name args) (.ref pid) with
          | (s3, none) => (s3, .ok pid)
          | (s3, some e) => (s3, .error e)
      | (s2, _) =>
          match storeCreate s2 (clientIDFor id (formatStorageKey name args)) type with
          | (s3, .error e) => (s3, .error e)
          | (s3, .ok _) =>
              match mutSetValue s3 id (formatStorageKey name args)
                  (.ref (clientIDFor id (formatStorageKey name args))) with
              | (s4, none) => (s4, .ok (clientIDFor id (formatStorageKey name args)))
              | (s4, some e) => (s4, .error e)

/-- Modelled from the spec: the operations a transaction may perform through
the Proxy/Mutator layer — scalar field writes, linked-record writes,
linked-record-list writes, deletes, creates, lookups, and
get-or-create-linked-record. -/
inductive Op where
  | setVal (id : String) (v : Value) (name : String) (args : Args)
  | setLinked (id target name : String) (args : Args)
  | setLinkedList (id : String) (targets : List (Option String)) (name : String) (args : Args)
  | del (id : String)
  | createRec (id type : String)
  | getRec (id : String)
  | getOrCreate (id name type : String) (args : Args)
deriving Repr

/-- One step of a transaction; a failing operation leaves the state written
so far (the transaction would abort, surfacing the error). -/
def applyOp (s : Store) : Op → Store
  | .setVal id v name args => (proxySetValue s id v name args).1
  | .setLinked id target name args => (proxySetLinkedRecord s id target name args).1
  | .setLinkedList id targets name args => (proxySetLinkedRecords s id targets name args).1
  | .del id => (storeDelete s id).1
  | .createRec id type => (storeCreate s id type).1
  | .getRec id => (storeGet s id).1
  | .getOrCreate id name type args => (getOrCreateLinkedRecord s id name type args).1

/-- A whole transaction: the operations applied in order. -/
def applyOps (s : Store) (ops : List Op) : Store :=
  ops.foldl applyOp s

/-- The base record for id 4 from the repository's test fixture. -/
def rec4 : Record :=
  { id := "4", typename := "User",
    fields :=
      [("address(location:\"WORK\")", .scalar (.str "1 Hacker Way")),
       ("administeredPages", .refs [some "beast"]),
       ("blockedPages", .refs [some "mpk"]),
       ("hometown", .ref "mpk"),
       ("name", .scalar (.str "Mark")),
       ("pet", .ref "beast")] }

/-- The base record for id 660361306 from the repository's test fixture. -/
def recGreg : Record :=
  { id := "660361306", typename := "User",
    fields :=
      [("administeredPages", .refs [some "mpk"]),
       ("status", .scalar (.str "alive"))] }

/-- The base record for id beast from the repository's test fixture. -/
def recBeast : Record :=
  { id := "beast", typename := "Page",
    fields := [("name", .scalar (.str "Beast")), ("owner", .ref "4")] }

/-- The base record for id mpk from the repository's test fixture. -/
def recMpk : Record :=
  { id := "mpk", typename := "Page", fields := [("name", .scalar (.str "Menlo Park"))] }

/-- The base record for id sf from the repository's test fixture. -/
def recSf : Record :=
  { id := "sf", typename := "Page", fields := [("name", .scalar (.str "San Francisco"))] }

/-- The root record from the repository's test fixture. -/
def recRoot : Record :=
  { id := ROOT_ID, typename := ROOT_TYPE, fields := [] }

/-- The `initialData` base Record Source of the repository's tests,
including the tombstoned identity `deleted`. -/
def initialData : RecordSource :=
  [("4", some rec4),
   ("660361306", some recGreg),
   ("beast", some recBeast),
   ("deleted", none),
   ("mpk", some recMpk),
   ("sf", some recSf),
   (ROOT_ID, some recRoot)]

/-- A fresh transaction over the test fixture: pristine base, empty sink,
empty backup, empty proxy cache. -/
def initialStore : Store :=
  { base := initialData, sink := [], backup := [], cache := [] }

theorem entryGet_entrySet_same {α : Type} (l : List (String × α)) (k : String) (v : α) :
    entryGet (entrySet l k v) k = some v := by
  induction l with
  | nil => simp [entrySet, entryGet]
  | cons p rest ih =>
      by_cases h : p.1 = k
      · simp [entrySet, entryGet, h]
      · simp [entrySet, entryGet, h, ih]

theorem entryGet_entrySet_ne {α : Type} (l : List (String × α)) {k k' : String}
    (h : k ≠ k') (v : α) : entryGet (entrySet l k v) k' = entryGet l k' := by
  induction l with
  | nil => simp [entrySet, entryGet, h]
  | cons p rest ih =>
      by_cases hp : p.1 = k
      · simp [entrySet, entryGet, hp, h]
      · by_cases hp' : p.1 = k'
        · simp [entrySet, entryGet, hp, hp', Ne.symm h]
        · simp [entrySet, entryGet, hp, hp', ih]

theorem entryGet_entryRemove_same {α : Type} (l : List (String × α)) (k : String) :
    entryGet (entryRemove l k) k = none := by
  induction l with
  | nil => simp [entryRemove, entryGet]
  | cons p rest ih =>
      by_cases h : p.1 = k
      · simp [entryRemove, entryGet, h, ih]
      · simp [entryRemove, entryGet, h, ih]

theorem entryGet_entryRemove_ne {α : Type} (l : List (String × α)) {k k' : String}
    (h : k ≠ k') : entryGet (entryRemove l k) k' = entryGet l k' := by
  induction l with
  | nil => simp [entryRemove, entryGet]
  | cons p rest ih =>
      by_cases hp : p.1 = k
      · simp [entryRemove, entryGet, hp, h, ih]
      · by_cases hp' : p.1 = k'
        · simp [entryRemove, entryGet, hp, hp', Ne.symm h, ih]
        · simp [entryRemove, entryGet, hp, hp', ih]

theorem getField_setField_same (r : Record) (k : String) (v : Value) :
    getField (setField r k v) k = some v := by
  simp [getField, setField, entryGet_entrySet_same]

theorem getField_setField_ne (r : Record) {k k' : String} (h : k ≠ k') (v : Value) :
    getField (setField r k v) k' = getField r k' := by
  simp [getField, setField, entryGet_entrySet_ne _ h]

theorem getSinkRecord_ok_base_backup {s s' : Store} {id : String} {r : Record}
    (h : getSinkRecord s id = .ok (s', r)) :
    s'.base = s.base ∧ s'.backup = s.backup ∧ s'.cache = s.cache := by
  unfold getSinkRecord at h
  split at h
  · cases h; exact ⟨rfl, rfl, rfl⟩
  · split at h
    · cases h; exact ⟨rfl, rfl, rfl⟩
    · cases h

theorem base_mutSetValue (s : Store) (id key : String) (v : Value) :
    (mutSetValue s id key v).1.base = s.base := by
  unfold mutSetValue
  split
  next e heq => rfl
  next s2 r heq =>
      have hb := (getSinkRecord_ok_base_backup heq).1
      simpa [setBackupSentinel] using hb

theorem base_mutCreate (s : Store) (id type : String) :
    (mutCreate s id type).1.base = s.base := by
  unfold mutCreate
  split <;> rfl

theorem base_mutDelete (s : Store) (id : String) :
    (mutDelete s id).base = s.base := rfl

theorem base_storeGet (s : Store) (id : String) :
    (storeGet s id).1.base = s.base := by
  unfold storeGet
  split
  · rfl
  · rfl
  · split <;> rfl

theorem base_storeCreate (s : Store) (id type : String) :
    (storeCreate s id type).1.base = s.base := by
  unfold storeCreate
  split
  next s1 e heq =>
      have h1 := base_mutCreate s id type
      rw [heq] at h1
      exact h1
  next s1 heq =>
      have h1 := base_mutCreate s id type
      rw [heq] at h1
      rw [base_storeGet]
      exact h1

theorem base_storeDelete (s : Store) (id : String) :
    (storeDelete s id).1.base = s.base := by
  unfold storeDelete
  split
  · rfl
  · simp [mutDelete, createBackupRecord]

theorem base_proxySetValue (s : Store) (id : String) (v : Value) (name : String)
    (args : Args) : (proxySetValue s id v name args).1.base = s.base := by
  unfold proxySetValue
  split
  · exact base_mutSetValue ..
  · rfl

theorem base_proxyGetLinkedRecord (s : Store) (id name : String) (args : Args) :
    (proxyGetLinkedRecord s id name args).1.base = s.base := by
  unfold proxyGetLinkedRecord
  split
  · rfl
  · rfl
  · exact base_storeGet ..

theorem base_getOrCreateLinkedRecord (s : Store) (id name type : String) (args : Args) :
    (getOrCreateLinkedRecord s id name type args).1.base = s.base := by
  unfold getOrCreateLinkedRecord
  split
  next s1 pid heq =>
      have h1 := base_proxyGetLinkedRecord s id name args
      rw [heq] at h1
      exact h1
  next s1 g hng heq =>
      have hs1 : s1.base = s.base := by
        have h1 := base_proxyGetLinkedRecord s id name args
        rw [heq] at h1
        exact h1
      split
      next s2 pid heq2 =>
          have hs2 : s2.base = s.base := by
            have h2 := base_storeGet s1 (clientIDFor id (formatStorageKey name args))
            rw [heq2] at h2
            rw [← hs1]
            exact h2
          split
          next s3 heq3 =>
              have h3 := base_mutSetValue s2 id (formatStorageKey name args) (.ref pid)
              rw [heq3] at h3
              rw [← hs2]
              exact h3
          next s3 e heq3 =>
              have h3 := base_mutSetValue s2 id (formatStorageKey name args) (.ref pid)
              rw [heq3] at h3
              rw [← hs2]
              exact h3
      next s2 g2 hng2 heq2 =>
          have hs2 : s2.base = s.base := by
            have h2 := base_storeGet s1 (clientIDFor id (formatStorageKey name args))
            rw [heq2] at h2
            rw [← hs1]
            exact h2
          split
          next s3 e heq3 =>
              have h3 := base_storeCreate s2 (clientIDFor id (formatStorageKey name args)) type
              rw [heq3] at h3
              rw [← hs2]
              exact h3
          next s3 r heq3 =>
              have hs3 : s3.base = s.base := by
                have h3 := base_storeCreate s2 (clientIDFor id (formatStorageKey name args)) type
                rw [heq3] at h3
                rw [← hs2]
                exact h3
              split
              next s4 heq4 =>
                  have h4 := base_mutSetValue s3 id (formatStorageKey name args)
                    (.ref (clientIDFor id (formatStorageKey name args)))
                  rw [heq4] at h4
                  rw [← hs3]
                  exact h4
              next s4 e heq4 =>
                  have h4 := base_mutSetValue s3 id (formatStorageKey name args)
                    (.ref (clientIDFor id (formatStorageKey name args)))
                  rw [heq4] at h4
                  rw [← hs3]
                  exact h4

theorem base_applyOp (s : Store) (o : Op) : (applyOp s o).base = s.base := by
  cases o with
  | setVal id v name args => exact base_proxySetValue ..
  | setLinked id target name args => exact base_mutSetValue ..
  | setLinkedList id targets name args => exact base_mutSetValue ..
  | del id => exact base_storeDelete ..
  | createRec id type => exact base_storeCreate ..
  | getRec id => exact base_storeGet ..
  | getOrCreate id name type args => exact base_getOrCreateLinkedRecord ..

theorem base_applyOps (s : Store) (ops : List Op) : (applyOps s ops).base = s.base := by
  induction ops generalizing s with
  | nil => rfl
  | cons o rest ih => rw [applyOps, List.foldl_cons, ← applyOps, ih, base_applyOp]

/-- The base Record Source is never mutated by any transaction: serializing
base after an arbitrary sequence of Proxy/Mutator operations (field writes,
linked-record writes, linked-record-list writes, deletes, creates, lookups,
get-or-create) yields exactly the same id-to-record mapping as before. -/
theorem base_never_mutated (s : Store) (ops : List Op) :
    serializeSource (applyOps s ops).base = serializeSource s.base :=
  congrArg serializeSource (base_applyOps s ops)

theorem rsGet_rsSet_same (rs : RecordSource) (id : String) (e : Option Record) :
    rsGet (rsSet rs id e) id = some e :=
  entryGet_entrySet_same ..

theorem rsGet_rsSet_ne (rs : RecordSource) {id id' : String} (h : id ≠ id')
    (e : Option Record) : rsGet (rsSet rs id e) id' = rsGet rs id' :=
  entryGet_entrySet_ne _ h _

/-- Backup faithfulness: whenever base holds a record for an identity and
backup also holds a record for it, the backup record carries the same
identity and type name, agrees with the base record on every field the base
record has, and any extra field it carries is the unpublish sentinel. -/
def BFP (base bk : RecordSource) : Prop :=
  ∀ id r b, rsGet base id = some (some r) → rsGet bk id = some (some b) →
    b.id = r.id ∧ b.typename = r.typename ∧
    (∀ k v, getField r k = some v → getField b k = some v) ∧
    (∀ k v, getField b k = some v → getField r k = some v ∨ v = Value.sentinel)

/-- Backup faithfulness of a transaction state. -/
def BackupFaithful (s : Store) : Prop := BFP s.base s.backup

theorem bfp_touch {base bk : RecordSource} (h : BFP base bk) (id : String) :
    BFP base (backupAfterTouch base bk id) := by
  unfold backupAfterTouch
  split
  · exact h
  · split
    next r0 heqb =>
        intro id0 r b hr hb
        by_cases hid : id = id0
        · subst hid
          rw [rsGet_rsSet_same] at hb
          rw [heqb] at hr
          injection hb with hb1
          injection hb1 with hb2
          injection hr with hr1
          injection hr1 with hr2
          subst hb2
          subst hr2
          exact ⟨rfl, rfl, fun k v hv => hv, fun k v hv => Or.inl hv⟩
        · rw [rsGet_rsSet_ne _ hid] at hb
          exact h id0 r b hr hb
    next heqb =>
        intro id0 r b hr hb
        by_cases hid : id = id0
        · subst hid
          rw [rsGet_rsSet_same] at hb
          exact absurd hb (by simp)
        · rw [rsGet_rsSet_ne _ hid] at hb
          exact h id0 r b hr hb
    · exact h

theorem bfp_sentinel {base bk : RecordSource} (h : BFP base bk) (id key : String) :
    BFP base (backupSentinel bk id key) := by
  unfold backupSentinel
  split
  next b0 heqb =>
      split
      next hsome => exact h
      next hnone =>
          intro id0 r b hr hb
          by_cases hid : id = id0
          · subst hid
            rw [rsGet_rsSet_same] at hb
            injection hb with hb1
            injection hb1 with hb2
            subst hb2
            obtain ⟨hbid, hbty, hold1, hold2⟩ := h id r b0 hr heqb
            refine ⟨hbid, hbty, ?_, ?_⟩
            · intro k v hv
              by_cases hk : key = k
              · subst hk
                exact absurd (congrArg Option.isSome (hold1 key v hv)) (by simpa using hnone)
              · rw [getField_setField_ne _ hk]
                exact hold1 k v hv
            · intro k v hv
              by_cases hk : key = k
              · subst hk
                rw [getField_setField_same] at hv
                injection hv with hv1
                exact Or.inr hv1.symm
              · rw [getField_setField_ne _ hk] at hv
                exact hold2 k v hv
          · rw [rsGet_rsSet_ne _ hid] at hb
            exact h id0 r b hr hb
  next heqb => exact h

theorem bf_createBackupRecord {s : Store} (h : BackupFaithful s) (id : String) :
    BackupFaithful (createBackupRecord s id) :=
  bfp_touch h id

theorem bf_mutSetValue {s : Store} (h : BackupFaithful s) (id key : String) (v : Value) :
    BackupFaithful (mutSetValue s id key v).1 := by
  unfold mutSetValue
  split
  next e heq => exact bfp_touch h id
  next s2 r heq =>
      obtain ⟨hb, hk, -⟩ := getSinkRecord_ok_base_backup heq
      have h2 : BFP s2.base s2.backup := by
        rw [hb, hk]
        exact bfp_touch h id
      exact bfp_sentinel h2 id key

theorem bf_mutCreate {s : Store} (h : BackupFaithful s) (id type : String) :
    BackupFaithful (mutCreate s id type).1 := by
  unfold mutCreate
  split
  · exact h
  · exact h

theorem bf_mutDelete {s : Store} (h : BackupFaithful s) (id : String) :
    BackupFaithful (mutDelete s id) :=
  bfp_touch h id

theorem bf_storeGet {s : Store} (h : BackupFaithful s) (id : String) :
    BackupFaithful (storeGet s id).1 := by
  unfold storeGet
  split
  · exact h
  · exact h
  · split <;> exact h

theorem bf_storeCreate {s : Store} (h : BackupFaithful s) (id type : String) :
    BackupFaithful (storeCreate s id type).1 := by
  unfold storeCreate
  split
  next s1 e heq =>
      have h1 := bf_mutCreate h id type
      rw [heq] at h1
      exact h1
  next s1 heq =>
      have h1 := bf_mutCreate h id type
      rw [heq] at h1
      have h2 : BackupFaithful { s1 with cache := entryRemove s1.cache id } := h1
      exact bf_storeGet h2 id

theorem bf_storeDelete {s : Store} (h : BackupFaithful s) (id : String) :
    BackupFaithful (storeDelete s id).1 := by
  unfold storeDelete
  split
  · exact h
  · exact bfp_touch h id

theorem bf_proxySetValue {s : Store} (h : BackupFaithful s) (id : String) (v : Value)
    (name : String) (args : Args) : BackupFaithful (proxySetValue s id v name args).1 := by
  unfold proxySetValue
  split
  · exact bf_mutSetValue h id (formatStorageKey name args) v
  · exact h

theorem bf_proxyGetLinkedRecord {s : Store} (h : BackupFaithful s) (id name : String)
    (args : Args) : BackupFaithful (proxyGetLinkedRecord s id name args).1 := by
  unfold proxyGetLinkedRecord
  split
  · exact h
  · exact h
  next tid heq => exact bf_storeGet h tid

theorem bf_getOrCreateLinkedRecord {s : Store} (h : BackupFaithful s)
    (id name type : String) (args : Args) :
    BackupFaithful (getOrCreateLinkedRecord s id name type args).1 := by
  unfold getOrCreateLinkedRecord
  split
  next s1 pid heq =>
      have h1 := bf_proxyGetLinkedRecord h id name args
      rw [heq] at h1
      exact h1
  next s1 g hng heq =>
      have h1 : BackupFaithful s1 := by
        have h1 := bf_proxyGetLinkedRecord h id name args
        rw [heq] at h1
        exact h1
      split
      next s2 pid heq2 =>
          have h2 : BackupFaithful s2 := by
            have h2 := bf_storeGet h1 (clientIDFor id (formatStorageKey name args))
            rw [heq2] at h2
            exact h2
          split
          next s3 heq3 =>
              have h3 := bf_mutSetValue h2 id (formatStorageKey name args) (.ref pid)
              rw [heq3] at h3
              exact h3
          next s3 e heq3 =>
              have h3 := bf_mutSetValue h2 id (formatStorageKey name args) (.ref pid)
              rw [heq3] at h3
              exact h3
      next s2 g2 hng2 heq2 =>
          have h2 : BackupFaithful s2 := by
            have h2 := bf_storeGet h1 (clientIDFor id (formatStorageKey name args))
            rw [heq2] at h2
            exact h2
          split
          next s3 e heq3 =>
              have h3 := bf_storeCreate h2 (clientIDFor id (formatStorageKey name args)) type
              rw [heq3] at h3
              exact h3
          next s3 r heq3 =>
              have h3 : BackupFaithful s3 := by
                have h3 := bf_storeCreate h2 (clientIDFor id (formatStorageKey name args)) type
                rw [heq3] at h3
                exact h3
              split
              next s4 heq4 =>
                  have h4 := bf_mutSetValue h3 id (formatStorageKey name args)
                    (.ref (clientIDFor id (formatStorageKey name args)))
                  rw [heq4] at h4
                  exact h4
              next s4 e heq4 =>
                  have h4 := bf_mutSetValue h3 id (formatStorageKey name args)
                    (.ref (clientIDFor id (formatStorageKey name args)))
                  rw [heq4] at h4
                  exact h4

theorem bf_applyOp {s : Store} (h : BackupFaithful s) (o : Op) :
    BackupFaithful (applyOp s o) := by
  cases o with
  | setVal id v name args => exact bf_proxySetValue h id v name args
  | setLinked id target name args =>
      exact bf_mutSetValue h id (formatStorageKey name args) (.ref target)
  | setLinkedList id targets name args =>
      exact bf_mutSetValue h id (formatStorageKey name args) (.refs targets)
  | del id => exact bf_storeDelete h id
  | createRec id type => exact bf_storeCreate h id type
  | getRec id => exact bf_storeGet h id
  | getOrCreate id name type args => exact bf_getOrCreateLinkedRecord h id name type args

theorem bf_applyOps {s : Store} (h : BackupFaithful s) (ops : List Op) :
    BackupFaithful (applyOps s ops) := by
  induction ops generalizing s with
  | nil => exact h
  | cons o rest ih => exact ih (bf_applyOp h o)

/-- A fresh transaction (empty backup) is backup-faithful. -/
theorem bf_initial : BackupFaithful initialStore := by
  intro id r b _ hb
  exact absurd hb (by simp [initialStore, rsGet, entryGet])

/-- Storage keys an operation field-writes on the given identity (an
over-approximation for operations that may write conditionally). -/
def opTouchedKeys (id : String) : Op → List String
  | .setVal id' _ name args => if id' = id then [formatStorageKey name args] else []
  | .setLinked id' _ name args => if id' = id then [formatStorageKey name args] else []
  | .setLinkedList id' _ name args => if id' = id then [formatStorageKey name args] else []
  | .del _ => []
  | .createRec _ _ => []
  | .getRec _ => []
  | .getOrCreate id' name _ args => if id' = id then [formatStorageKey name args] else []

/-- Whether an operation is a whole-record delete. -/
def opIsDelete : Op → Bool
  | .del _ => true
  | _ => false

/-- The claim that backup is populated per touched field rather than by an
eager whole-record capture: in a transaction with no whole-record
deletes, every field present in a backup record would have to be one of the
storage keys the transaction wrote on that identity. -/
def ClaimC2PerField : Prop :=
  ∀ ops : List Op, ops.all (fun o => !opIsDelete o) = true →
    ∀ id b, rsGet (applyOps initialStore ops).backup id = some (some b) →
    ∀ k v, getField b k = some v →
      k ∈ (ops.map (opTouchedKeys id)).flatten

/-- The per-field reading of the backup discipline is false: a transaction
that writes only the `name` field of the pre-existing record `4` leaves a
backup entry that also carries the untouched `hometown` field (indeed the
entire base record), because the first touch of a pre-existing record
captures the whole base Record into backup — exactly what the repository's
own test asserts via referential equality of `backupSource.get("4")` with
the base record. -/
theorem backup_not_per_field : ¬ ClaimC2PerField := by
  intro h
  have hm := h [.setVal "4" (.scalar (.str "Marcus")) "name" []] (by decide) "4" rec4
    (by decide) "hometown" (.ref "mpk") (by decide)
  exact absurd hm (by decide)

/-- Amended C2: on the first touch of a record that pre-existed in base, the
whole base Record is captured into backup once; consequently, after any
sequence of Proxy/Mutator operations, the backup entry for such an identity
still shows every base field's original pre-mutation value — no matter how
many times each field was rewritten — with fields added during the
transaction marked by the unpublish sentinel. -/
theorem backup_keeps_original_field_values (ops : List Op) (s : Store)
    (hbf : BackupFaithful s) (id : String) (r b : Record) (k : String) (v : Value)
    (hbase : rsGet (applyOps s ops).base id = some (some r))
    (hback : rsGet (applyOps s ops).backup id = some (some b))
    (hfield : getField r k = some v) :
    getField b k = some v :=
  ((bf_applyOps hbf ops) id r b hbase hback).2.2.1 k v hfield

/-- The operation sequence of the witness below: a linked-record write on a
field the base record lacks, which both captures the whole base record and
adds a sentinel. -/
def c2ops : List Op := [.setLinked "660361306" "mpk" "hometown" []]

theorem backup_keeps_original_field_values_witness :
    BackupFaithful initialStore ∧
    rsGet (applyOps initialStore c2ops).base "660361306" = some (some recGreg) ∧
    rsGet (applyOps initialStore c2ops).backup "660361306"
      = some (some (setField recGreg "hometown" Value.sentinel)) ∧
    getField recGreg "status" = some (.scalar (.str "alive")) ∧
    getField (setField recGreg "hometown" Value.sentinel) "status"
      = some (.scalar (.str "alive")) :=
  ⟨bf_initial, by decide, by decide, by decide,
    backup_keeps_original_field_values c2ops initialStore bf_initial "660361306"
      recGreg (setField recGreg "hometown" Value.sentinel) "status"
      (.scalar (.str "alive")) (by decide) (by decide) (by decide)⟩

/-- Adding a field that a pre-existing record did not have in base records
the unpublish-field sentinel for that field in the backup entry, while all
fields the record did have in base keep their original values in the same
entry. -/
theorem added_field_marked_with_sentinel (s : Store) (id key : String) (v : Value)
    (r : Record)
    (hbf : BackupFaithful s)
    (hbase : rsGet s.base id = some (some r))
    (hnew : getField r key = none)
    (hnotomb : rsGet s.backup id ≠ some none) :
    ∃ b, rsGet (mutSetValue s id key v).1.backup id = some (some b) ∧
      getField b key = some Value.sentinel ∧
      (∀ k' w, getField r k' = some w → getField b k' = some w) := by
  unfold mutSetValue
  split
  next e heq =>
      exfalso
      unfold getSinkRecord at heq
      split at heq
      · cases heq
      · split at heq
        · cases heq
        next hno => exact hno r hbase
  next s2 r2 heq =>
      obtain ⟨hb2, hk2, -⟩ := getSinkRecord_ok_base_backup heq
      have hgoal :
          (setBackupSentinel
            { s2 with sink := rsSet s2.sink id (some (setField r2 key v)) } id key).backup
          = backupSentinel (backupAfterTouch s.base s.backup id) id key := by
        rw [show (setBackupSentinel
            { s2 with sink := rsSet s2.sink id (some (setField r2 key v)) } id key).backup
            = backupSentinel s2.backup id key from rfl, hk2]
        rfl
      rw [hgoal]
      cases hob : rsGet s.backup id with
      | none =>
          have htouch : backupAfterTouch s.base s.backup id = rsSet s.backup id (some r) := by
            unfold backupAfterTouch
            rw [hob, hbase]
          rw [htouch]
          have hgetr : rsGet (rsSet s.backup id (some r)) id = some (some r) :=
            rsGet_rsSet_same ..
          have hsent : backupSentinel (rsSet s.backup id (some r)) id key
              = rsSet (rsSet s.backup id (some r)) id (some (setField r key Value.sentinel)) := by
            unfold backupSentinel
            rw [hgetr]
            simp [hnew]
          rw [hsent]
          refine ⟨setField r key Value.sentinel, rsGet_rsSet_same .., getField_setField_same .., ?_⟩
          intro k' w hw
          have hk' : key ≠ k' := by
            intro hkk
            rw [← hkk, hnew] at hw
            cases hw
          rw [getField_setField_ne _ hk']
          exact hw
      | some e =>
          cases e with
          | none => exact absurd hob hnotomb
          | some b0 =>
              have htouch : backupAfterTouch s.base s.backup id = s.backup := by
                unfold backupAfterTouch
                rw [hob]
              rw [htouch]
              obtain ⟨hbid, hbty, hold1, hold2⟩ := hbf id r b0 hbase hob
              cases hcase : getField b0 key with
              | some w =>
                  have hsent : backupSentinel s.backup id key = s.backup := by
                    unfold backupSentinel
                    rw [hob]
                    simp [hcase]
                  rw [hsent]
                  have hw : w = Value.sentinel := by
                    rcases hold2 key w hcase with hcontra | hs
                    · rw [hnew] at hcontra
                      cases hcontra
                    · exact hs
                  subst hw
                  exact ⟨b0, hob, hcase, hold1⟩
              | none =>
                  have hsent : backupSentinel s.backup id key
                      = rsSet s.backup id (some (setField b0 key Value.sentinel)) := by
                    unfold backupSentinel
                    rw [hob]
                    simp [hcase]
                  rw [hsent]
                  refine ⟨setField b0 key Value.sentinel, rsGet_rsSet_same ..,
                    getField_setField_same .., ?_⟩
                  intro k' w hw
                  have hk' : key ≠ k' := by
                    intro hkk
                    rw [← hkk, hnew] at hw
                    cases hw
                  rw [getField_setField_ne _ hk']
                  exact hold1 k' w hw

theorem added_field_marked_with_sentinel_witness :
    BackupFaithful initialStore ∧
    rsGet initialStore.base "660361306" = some (some recGreg) ∧
    getField recGreg "hometown" = none ∧
    rsGet initialStore.backup "660361306" ≠ some none ∧
    (∃ b, rsGet (mutSetValue initialStore "660361306" "hometown" (.ref "mpk")).1.backup
        "660361306" = some (some b) ∧
      getField b "hometown" = some Value.sentinel ∧
      (∀ k' w, getField recGreg k' = some w → getField b k' = some w)) :=
  ⟨bf_initial, by decide, by decide, by decide,
    added_field_marked_with_sentinel initialStore "660361306" "hometown" (.ref "mpk")
      recGreg bf_initial (by decide) (by decide) (by decide)⟩

/-- Cache consistency of the Record Source Proxy's identity-to-proxy cache:
a cached null entry only exists for identities whose merged status is
Nonexistent, and a cached proxy carries the identity it is cached under and
only exists while the status is Existent. -/
def CacheConsistent (s : Store) : Prop :=
  ∀ id e, entryGet s.cache id = some e →
    (e = none → mutGetStatus s id = .nonexistent) ∧
    (∀ pid, e = some pid → pid = id ∧ mutGetStatus s id = .existent)

/-- A fresh transaction (empty cache) is cache-consistent. -/
theorem cc_initial : CacheConsistent initialStore := by
  intro id e he
  exact absurd he (by simp [initialStore, entryGet])

/-- Record Source Proxy `get` trichotomy: in a cache-consistent state,
`get(id)` returns null exactly when the Mutator status of `id` is
Nonexistent, returns no proxy exactly when the status is Unknown, and any
returned proxy carries identity `id` (with status Existent). -/
theorem get_status_trichotomy (s : Store) (hcc : CacheConsistent s) (id : String) :
    ((storeGet s id).2 = .nullRec ↔ mutGetStatus s id = .nonexistent) ∧
    ((storeGet s id).2 = .unknownRec ↔ mutGetStatus s id = .unknown) ∧
    (∀ pid, (storeGet s id).2 = .proxy pid →
      pid = id ∧ mutGetStatus s id = .existent) := by
  unfold storeGet
  cases hc : entryGet s.cache id with
  | none =>
      cases hst : mutGetStatus s id with
      | existent => simp [hst]
      | nonexistent => simp [hst]
      | unknown => simp [hst]
  | some e =>
      obtain ⟨h1, h2⟩ := hcc id e hc
      cases e with
      | none =>
          have hst := h1 rfl
          simp [hst]
      | some pid =>
          obtain ⟨hpid, hst⟩ := h2 pid rfl
          subst hpid
          simp [hst]

theorem get_status_trichotomy_witness :
    CacheConsistent initialStore ∧
    (((storeGet initialStore "4").2 = .nullRec
        ↔ mutGetStatus initialStore "4" = .nonexistent) ∧
      ((storeGet initialStore "4").2 = .unknownRec
        ↔ mutGetStatus initialStore "4" = .unknown) ∧
      (∀ pid, (storeGet initialStore "4").2 = .proxy pid →
        pid = "4" ∧ mutGetStatus initialStore "4" = .existent)) :=
  ⟨cc_initial, get_status_trichotomy initialStore cc_initial "4"⟩

theorem storeCreate_duplicate {s : Store} {id : String} (type : String)
    (hex : mutGetStatus s id = .existent) :
    storeCreate s id type = (s, .error (.duplicateRecord id)) := by
  have hmc : mutCreate s id type = (s, some (.duplicateRecord id)) := by
    unfold mutCreate
    rw [if_pos hex]
  unfold storeCreate
  rw [hmc]

theorem storeGet_of_uncached_existent {s : Store} {id : String}
    (hc : entryGet s.cache id = none) (hst : mutGetStatus s id = .existent) :
    storeGet s id = ({ s with cache := entrySet s.cache id (some id) }, .proxy id) := by
  unfold storeGet
  rw [hc, hst]

theorem storeCreate_success {s : Store} {id : String} (type : String)
    (hne : mutGetStatus s id ≠ .existent) :
    rsGet (storeCreate s id type).1.sink id
      = some (some { id := id, typename := type, fields := [] }) ∧
    (storeCreate s id type).2 = .ok (.proxy id) ∧
    (storeGet (storeCreate s id type).1 id).2 = .proxy id ∧
    mutGetType (storeCreate s id type).1 id = some type := by
  have hmc : mutCreate s id type
      = ({ s with
            sink := rsSet s.sink id (some { id := id, typename := type, fields := [] }) },
          none) := by
    unfold mutCreate
    rw [if_neg hne]
  have hget : storeGet
      { base := s.base,
        sink := rsSet s.sink id (some { id := id, typename := type, fields := [] }),
        backup := s.backup, cache := entryRemove s.cache id } id
      = ({ base := s.base,
           sink := rsSet s.sink id (some { id := id, typename := type, fields := [] }),
           backup := s.backup,
           cache := entrySet (entryRemove s.cache id) id (some id) }, .proxy id) := by
    apply storeGet_of_uncached_existent
    · exact entryGet_entryRemove_same ..
    · simp [mutGetStatus, rsGet_rsSet_same, recordStatus]
  have hsc : storeCreate s id type
      = ({ base := s.base,
           sink := rsSet s.sink id (some { id := id, typename := type, fields := [] }),
           backup := s.backup,
           cache := entrySet (entryRemove s.cache id) id (some id) },
          .ok (.proxy id)) := by
    unfold storeCreate
    rw [hmc]
    show ((storeGet
              { base := s.base,
                sink := rsSet s.sink id (some { id := id, typename := type, fields := [] }),
                backup := s.backup, cache := entryRemove s.cache id } id).1,
          Except.ok (storeGet
              { base := s.base,
                sink := rsSet s.sink id (some { id := id, typename := type, fields := [] }),
                backup := s.backup, cache := entryRemove s.cache id } id).2) = _
    rw [hget]
  rw [hsc]
  refine ⟨rsGet_rsSet_same .., rfl, ?_, ?_⟩
  · simp [storeGet, entryGet_entrySet_same]
  · simp [mutGetType, rsGet_rsSet_same]

/-- `create(id, type)` fails with a DuplicateRecord error naming the id when
the status of `id` is Existent; otherwise it succeeds, the sink receives a
fresh Record holding exactly the identity and type-name fields, and a
subsequent `get(id)` returns a proxy whose identity is `id` and whose type
is `type`. -/
theorem create_spec (s : Store) (id type : String) :
    (mutGetStatus s id = .existent →
      (storeCreate s id type).1 = s ∧
      (storeCreate s id type).2 = .error (.duplicateRecord id) ∧
      ∃ pre post, errorMessage (.duplicateRecord id) = pre ++ id ++ post) ∧
    (mutGetStatus s id ≠ .existent →
      rsGet (storeCreate s id type).1.sink id
        = some (some { id := id, typename := type, fields := [] }) ∧
      (storeCreate s id type).2 = .ok (.proxy id) ∧
      (storeGet (storeCreate s id type).1 id).2 = .proxy id ∧
      mutGetType (storeCreate s id type).1 id = some type) := by
  constructor
  · intro hex
    rw [storeCreate_duplicate type hex]
    exact ⟨rfl, rfl,
      ⟨"RelayRecordSourceMutator#create(): Cannot create a record with id `",
        "`, this record already exists.", rfl⟩⟩
  · intro hne
    exact storeCreate_success type hne

theorem create_spec_witness :
    (mutGetStatus initialStore "4" = .existent ∧
      (storeCreate initialStore "4" "User").1 = initialStore ∧
      (storeCreate initialStore "4" "User").2 = .error (.duplicateRecord "4") ∧
      ∃ pre post, errorMessage (.duplicateRecord "4") = pre ++ "4" ++ post) ∧
    (mutGetStatus initialStore "842472" ≠ .existent ∧
      rsGet (storeCreate initialStore "842472" "User").1.sink "842472"
        = some (some { id := "842472", typename := "User", fields := [] }) ∧
      (storeCreate initialStore "842472" "User").2 = .ok (.proxy "842472") ∧
      (storeGet (storeCreate initialStore "842472" "User").1 "842472").2
        = .proxy "842472" ∧
      mutGetType (storeCreate initialStore "842472" "User").1 "842472" = some "User") :=
  ⟨⟨by decide, (create_spec initialStore "4" "User").1 (by decide)⟩,
    ⟨by decide, (create_spec initialStore "842472" "User").2 (by decide)⟩⟩

/-- `delete` on the reserved root identity fails with RootDeletion; `delete`
on any other identity — whatever its status, including Unknown — writes a
tombstone into sink and a subsequent `get` of that identity returns null. -/
theorem delete_spec (s : Store) (id : String) :
    (storeDelete s ROOT_ID).2 = some .rootDeletion ∧
    (id ≠ ROOT_ID →
      (storeDelete s id).2 = none ∧
      rsGet (storeDelete s id).1.sink id = some none ∧
      (storeGet (storeDelete s id).1 id).2 = .nullRec) := by
  constructor
  · unfold storeDelete
    rw [if_pos rfl]
  · intro hne
    have hsd : storeDelete s id
        = (mutDelete { s with cache := entryRemove s.cache id } id, none) := by
      unfold storeDelete
      rw [if_neg hne]
    refine ⟨by rw [hsd], ?_, ?_⟩
    · rw [hsd]
      exact rsGet_rsSet_same ..
    · rw [hsd]
      simp [storeGet, mutDelete, createBackupRecord, entryGet_entryRemove_same,
        mutGetStatus, rsGet_rsSet_same, recordStatus]

theorem delete_spec_witness :
    (storeDelete initialStore ROOT_ID).2 = some .rootDeletion ∧
    ("unfetched" ≠ ROOT_ID ∧
      mutGetStatus initialStore "unfetched" = .unknown ∧
      (storeDelete initialStore "unfetched").2 = none ∧
      rsGet (storeDelete initialStore "unfetched").1.sink "unfetched" = some none ∧
      (storeGet (storeDelete initialStore "unfetched").1 "unfetched").2 = .nullRec) :=
  ⟨(delete_spec initialStore "unfetched").1,
    by decide, by decide,
    (delete_spec initialStore "unfetched").2 (by decide)⟩

/-- An identity is writable when sink or base holds a record for it — the
precondition of the Mutator's field writes. -/
def Writable (s : Store) (id : String) : Prop :=
  (∃ r, rsGet s.sink id = some (some r)) ∨ (∃ r, rsGet s.base id = some (some r))

theorem not_writable_of_getSinkRecord_error {s : Store} {id : String} {e : StoreError}
    (heq : getSinkRecord s id = .error e) : ¬ Writable s id := by
  unfold getSinkRecord at heq
  split at heq
  · cases heq
  next hno =>
      split at heq
      · cases heq
      next hnob =>
          rintro (⟨r, hr⟩ | ⟨r, hr⟩)
          · exact hno r hr
          · exact hnob r hr

theorem mutSetValue_writable {s : Store} {id : String} (hw : Writable s id)
    (key : String) (v : Value) :
    (mutSetValue s id key v).2 = none ∧
    mutGetValue (mutSetValue s id key v).1 id key = some v := by
  unfold mutSetValue
  split
  next e heq =>
      exact absurd hw
        (not_writable_of_getSinkRecord_error (s := createBackupRecord s id) heq)
  next s2 r2 heq =>
      refine ⟨rfl, ?_⟩
      simp [mutGetValue, setBackupSentinel, rsGet_rsSet_same, getField_setField_same]

/-- `setValue` rejects a plain keyed (non-array, non-scalar) object with an
InvalidFieldValue error and leaves the state unchanged; a scalar or array
value is accepted and round-trips: reading the same field back through
`getValue` returns the value just written. -/
theorem setValue_spec (s : Store) (id name : String) (args : Args) (v : Value) :
    (∀ fs, proxySetValue s id (.obj fs) name args
        = (s, some (.invalidFieldValue (.obj fs)))) ∧
    (validFieldValue v = true → Writable s id →
      (proxySetValue s id v name args).2 = none ∧
      proxyGetValue (proxySetValue s id v name args).1 id name args = some v) := by
  constructor
  · intro fs
    rfl
  · intro hv hw
    have h := mutSetValue_writable hw (formatStorageKey name args) v
    simp only [proxySetValue, proxyGetValue, hv, if_true]
    exact h

theorem setValue_spec_witness :
    (proxySetValue initialStore "4"
        (.obj [("day", .int 1), ("month", .int 1), ("year", .int 1970)]) "birthdate" []
      = (initialStore,
          some (.invalidFieldValue
            (.obj [("day", .int 1), ("month", .int 1), ("year", .int 1970)])))) ∧
    (validFieldValue (.list [.str "a@example.com", .str "b@example.com"]) = true ∧
      Writable initialStore "4" ∧
      (proxySetValue initialStore "4" (.list [.str "a@example.com", .str "b@example.com"])
          "emailAddresses" []).2 = none ∧
      proxyGetValue (proxySetValue initialStore "4"
          (.list [.str "a@example.com", .str "b@example.com"]) "emailAddresses" []).1
        "4" "emailAddresses" []
        = some (.list [.str "a@example.com", .str "b@example.com"])) :=
  ⟨(setValue_spec initialStore "4" "birthdate" []
      (.obj [("day", .int 1), ("month", .int 1), ("year", .int 1970)])).1
      [("day", .int 1), ("month", .int 1), ("year", .int 1970)],
    by decide, Or.inr ⟨rec4, by decide⟩,
    (setValue_spec initialStore "4" "emailAddresses" []
        (.list [.str "a@example.com", .str "b@example.com"])).2
      (by decide) (Or.inr ⟨rec4, by decide⟩)⟩

/-- A tombstoned identity (explicit null entry) has status Nonexistent, not
Existent, so `create` on a previously deleted identity succeeds without a
DuplicateRecord error and a subsequent `get` returns the newly created
proxy rather than null. -/
theorem create_after_tombstone (s : Store) (id type : String)
    (hsink : rsGet s.sink id = none) (hbase : rsGet s.base id = some none) :
    mutGetStatus s id = .nonexistent ∧
    (storeCreate s id type).2 = .ok (.proxy id) ∧
    (storeGet (storeCreate s id type).1 id).2 = .proxy id := by
  have hst : mutGetStatus s id = .nonexistent := by
    simp [mutGetStatus, hsink, hbase, recordStatus]
  have hne : mutGetStatus s id ≠ .existent := by
    rw [hst]
    intro hc
    cases hc
  obtain ⟨-, h2, h3, -⟩ := storeCreate_success type hne
  exact ⟨hst, h2, h3⟩

theorem clientIDFor_ne (id key : String) : clientIDFor id key ≠ id := by
  intro h
  have hl := congrArg String.length h
  rw [clientIDFor, String.length_append, String.length_append] at hl
  have hc : (":" : String).length = 1 := rfl
  rw [hc] at hl
  omega

theorem getSinkRecord_ok_sink {s s' : Store} {id : String} {r : Record}
    (h : getSinkRecord s id = .ok (s', r)) :
    s'.sink = s.sink ∨
      s'.sink = rsSet s.sink id (some { id := id, typename := r.typename, fields := [] }) := by
  unfold getSinkRecord at h
  split at h
  · cases h
    exact Or.inl rfl
  · split at h
    · cases h
      exact Or.inr rfl
    · cases h

theorem cache_mutSetValue (s : Store) (id key : String) (v : Value) :
    (mutSetValue s id key v).1.cache = s.cache := by
  unfold mutSetValue
  split
  next e heq => rfl
  next s2 r2 heq =>
      have h := (getSinkRecord_ok_base_backup heq).2.2
      simpa [setBackupSentinel] using h

theorem mutSetValue_writable_sink {s : Store} {id : String} (hw : Writable s id)
    (key : String) (v : Value) :
    ∃ rr, rsGet (mutSetValue s id key v).1.sink id = some (some rr) := by
  unfold mutSetValue
  split
  next e heq =>
      exact absurd hw
        (not_writable_of_getSinkRecord_error (s := createBackupRecord s id) heq)
  next s2 r2 heq =>
      refine ⟨setField r2 key v, ?_⟩
      show rsGet (rsSet s2.sink id (some (setField r2 key v))) id = _
      exact rsGet_rsSet_same ..

theorem mutGetStatus_congr {s t : Store} {id : String}
    (hs : rsGet t.sink id = rsGet s.sink id)
    (hb : rsGet t.base id = rsGet s.base id) :
    mutGetStatus t id = mutGetStatus s id := by
  unfold mutGetStatus
  rw [hs, hb]

theorem mutSetValue_status_other {s : Store} {id : String} (key : String) (v : Value)
    {id' : String} (hne : id ≠ id') :
    mutGetStatus (mutSetValue s id key v).1 id' = mutGetStatus s id' := by
  unfold mutSetValue
  split
  next e heq => rfl
  next s2 r2 heq =>
      have hbase : s2.base = s.base := (getSinkRecord_ok_base_backup heq).1
      apply mutGetStatus_congr
      · show rsGet (rsSet s2.sink id (some (setField r2 key v))) id' = rsGet s.sink id'
        rw [rsGet_rsSet_ne _ hne]
        rcases getSinkRecord_ok_sink heq with hs | hs
        · rw [hs]
          rfl
        · rw [hs, rsGet_rsSet_ne _ hne]
          rfl
      · show rsGet s2.base id' = rsGet s.base id'
        rw [hbase]

theorem writable_congr {s s' : Store} {id : String}
    (hs : rsGet s'.sink id = rsGet s.sink id) (hb : s'.base = s.base)
    (h : Writable s id) : Writable s' id := by
  rcases h with ⟨r, hr⟩ | ⟨r, hr⟩
  · exact Or.inl ⟨r, by rw [hs]; exact hr⟩
  · exact Or.inr ⟨r, by rw [hb]; exact hr⟩

theorem linkedID_of_getValue_ref {s : Store} {id key t : String}
    (h : mutGetValue s id key = some (.ref t)) :
    mutGetLinkedRecordID s id key = some (some t) := by
  unfold mutGetLinkedRecordID
  rw [h]

theorem linkedID_of_getValue_null {s : Store} {id key : String}
    (h : mutGetValue s id key = some (.scalar .null)) :
    mutGetLinkedRecordID s id key = some none := by
  unfold mutGetLinkedRecordID
  rw [h]

theorem proxyGetLinkedRecord_unknown {s : Store} {id name : String} {args : Args}
    (h : mutGetLinkedRecordID s id (formatStorageKey name args) = none) :
    proxyGetLinkedRecord s id name args = (s, .unknownRec) := by
  unfold proxyGetLinkedRecord
  rw [h]

theorem proxyGetLinkedRecord_null {s : Store} {id name : String} {args : Args}
    (h : mutGetLinkedRecordID s id (formatStorageKey name args) = some none) :
    proxyGetLinkedRecord s id name args = (s, .nullRec) := by
  unfold proxyGetLinkedRecord
  rw [h]

theorem proxyGetLinkedRecord_ref {s : Store} {id name : String} {args : Args} {t : String}
    (h : mutGetLinkedRecordID s id (formatStorageKey name args) = some (some t)) :
    proxyGetLinkedRecord s id name args = storeGet s t := by
  unfold proxyGetLinkedRecord
  rw [h]

theorem storeGet_cached_proxy {s : Store} {id pid : String}
    (hc : entryGet s.cache id = some (some pid)) :
    storeGet s id = (s, .proxy pid) := by
  unfold storeGet
  rw [hc]

theorem storeGet_uncached_nonexistent {s : Store} {id : String}
    (hc : entryGet s.cache id = none) (hst : mutGetStatus s id = .nonexistent) :
    storeGet s id = ({ s with cache := entrySet s.cache id none }, .nullRec) := by
  unfold storeGet
  rw [hc, hst]

theorem storeGet_uncached_unknown {s : Store} {id : String}
    (hc : entryGet s.cache id = none) (hst : mutGetStatus s id = .unknown) :
    storeGet s id = (s, .unknownRec) := by
  unfold storeGet
  rw [hc, hst]

theorem storeCreate_closed {s : Store} {id : String} (type : String)
    (hne : mutGetStatus s id ≠ .existent) :
    storeCreate s id type
      = ({ base := s.base,
           sink := rsSet s.sink id (some { id := id, typename := type, fields := [] }),
           backup := s.backup,
           cache := entrySet (entryRemove s.cache id) id (some id) },
          .ok (.proxy id)) := by
  have hmc : mutCreate s id type
      = ({ s with
            sink := rsSet s.sink id (some { id := id, typename := type, fields := [] }) },
          none) := by
    unfold mutCreate
    rw [if_neg hne]
  have hget : storeGet
      { base := s.base,
        sink := rsSet s.sink id (some { id := id, typename := type, fields := [] }),
        backup := s.backup, cache := entryRemove s.cache id } id
      = ({ base := s.base,
           sink := rsSet s.sink id (some { id := id, typename := type, fields := [] }),
           backup := s.backup,
           cache := entrySet (entryRemove s.cache id) id (some id) }, .proxy id) := by
    apply storeGet_of_uncached_existent
    · exact entryGet_entryRemove_same ..
    · simp [mutGetStatus, rsGet_rsSet_same, recordStatus]
  unfold storeCreate
  rw [hmc]
  show ((storeGet
            { base := s.base,
              sink := rsSet s.sink id (some { id := id, typename := type, fields := [] }),
              backup := s.backup, cache := entryRemove s.cache id } id).1,
        Except.ok (storeGet
            { base := s.base,
              sink := rsSet s.sink id (some { id := id, typename := type, fields := [] }),
              backup := s.backup, cache := entryRemove s.cache id } id).2) = _
  rw [hget]

theorem createAndLink (s2 : Store) {id : String} (key type : String)
    (hf2 : mutGetStatus s2 (clientIDFor id key) ≠ .existent)
    (hw2 : Writable s2 id)
    (hne : clientIDFor id key ≠ id) :
    ∃ s4,
      storeCreate s2 (clientIDFor id key) type
        = ({ base := s2.base,
             sink := rsSet s2.sink (clientIDFor id key)
               (some { id := clientIDFor id key, typename := type, fields := [] }),
             backup := s2.backup,
             cache := entrySet (entryRemove s2.cache (clientIDFor id key))
               (clientIDFor id key) (some (clientIDFor id key)) },
            .ok (.proxy (clientIDFor id key))) ∧
      mutSetValue
          { base := s2.base,
            sink := rsSet s2.sink (clientIDFor id key)
              (some { id := clientIDFor id key, typename := type, fields := [] }),
            backup := s2.backup,
            cache := entrySet (entryRemove s2.cache (clientIDFor id key))
              (clientIDFor id key) (some (clientIDFor id key)) }
          id key (.ref (clientIDFor id key)) = (s4, none) ∧
      mutGetValue s4 id key = some (.ref (clientIDFor id key)) ∧
      mutGetStatus s4 (clientIDFor id key) = .existent ∧
      entryGet s4.cache (clientIDFor id key) = some (some (clientIDFor id key)) ∧
      (∃ rr, rsGet s4.sink id = some (some rr)) := by
  have hS3 := storeCreate_closed type hf2
  have hw3 : Writable
      { base := s2.base,
        sink := rsSet s2.sink (clientIDFor id key)
          (some { id := clientIDFor id key, typename := type, fields := [] }),
        backup := s2.backup,
        cache := entrySet (entryRemove s2.cache (clientIDFor id key))
          (clientIDFor id key) (some (clientIDFor id key)) } id := by
    refine writable_congr (s := s2) ?_ rfl hw2
    show rsGet (rsSet s2.sink (clientIDFor id key)
      (some { id := clientIDFor id key, typename := type, fields := [] })) id
      = rsGet s2.sink id
    exact rsGet_rsSet_ne _ hne _
  obtain ⟨hok, hval⟩ := mutSetValue_writable hw3 key (.ref (clientIDFor id key))
  obtain ⟨rr, hrr⟩ := mutSetValue_writable_sink hw3 key (.ref (clientIDFor id key))
  refine ⟨_, hS3, ?_, hval, ?_, ?_, ⟨rr, hrr⟩⟩
  · rw [← hok]
  · rw [mutSetValue_status_other key _ (Ne.symm hne)]
    simp [mutGetStatus, rsGet_rsSet_same, recordStatus]
  · rw [cache_mutSetValue]
    show entryGet (entrySet (entryRemove s2.cache (clientIDFor id key))
      (clientIDFor id key) (some (clientIDFor id key))) (clientIDFor id key) = _
    exact entryGet_entrySet_same ..

set_option maxRecDepth 8192 in
theorem goc_first {s : Store} {id name type : String} {args : Args}
    (hnolink : mutGetLinkedRecordID s id (formatStorageKey name args) = none ∨
      mutGetLinkedRecordID s id (formatStorageKey name args) = some none)
    (hfresh : mutGetStatus s (clientIDFor id (formatStorageKey name args)) ≠ .existent)
    (hnocache : entryGet s.cache (clientIDFor id (formatStorageKey name args)) = none)
    (hw : Writable s id) :
    ∃ s4, getOrCreateLinkedRecord s id name type args
        = (s4, .ok (clientIDFor id (formatStorageKey name args))) ∧
      mutGetValue s4 id (formatStorageKey name args)
        = some (.ref (clientIDFor id (formatStorageKey name args))) ∧
      mutGetStatus s4 (clientIDFor id (formatStorageKey name args)) = .existent ∧
      entryGet s4.cache (clientIDFor id (formatStorageKey name args))
        = some (some (clientIDFor id (formatStorageKey name args))) ∧
      (∃ rr, rsGet s4.sink id = some (some rr)) := by
  have hne : clientIDFor id (formatStorageKey name args) ≠ id :=
    clientIDFor_ne id (formatStorageKey name args)
  cases hst : mutGetStatus s (clientIDFor id (formatStorageKey name args)) with
  | existent => exact absurd hst hfresh
  | unknown =>
      obtain ⟨s4, hS3, hms, hv, hstat, hcache, hsink⟩ :=
        createAndLink s (formatStorageKey name args) type hfresh hw hne
      refine ⟨s4, ?_, hv, hstat, hcache, hsink⟩
      unfold getOrCreateLinkedRecord
      rcases hnolink with hnl | hnl
      · simp only [proxyGetLinkedRecord_unknown hnl,
          storeGet_uncached_unknown hnocache hst, hS3, hms]
      · simp only [proxyGetLinkedRecord_null hnl,
          storeGet_uncached_unknown hnocache hst, hS3, hms]
  | nonexistent =>
      obtain ⟨s4, hS3, hms, hv, hstat, hcache, hsink⟩ :=
        createAndLink
          { s with
            cache := entrySet s.cache
              (clientIDFor id (formatStorageKey name args)) none }
          (formatStorageKey name args) type hfresh hw hne
      refine ⟨s4, ?_, hv, hstat, hcache, hsink⟩
      unfold getOrCreateLinkedRecord
      rcases hnolink with hnl | hnl
      · simp only [proxyGetLinkedRecord_unknown hnl,
          storeGet_uncached_nonexistent hnocache hst, hS3, hms]
      · simp only [proxyGetLinkedRecord_null hnl,
          storeGet_uncached_nonexistent hnocache hst, hS3, hms]

theorem goc_relink {s : Store} {id name type : String} {args : Args}
    (hnull : mutGetLinkedRecordID s id (formatStorageKey name args) = some none)
    (hcache : entryGet s.cache (clientIDFor id (formatStorageKey name args))
      = some (some (clientIDFor id (formatStorageKey name args))))
    (hw : Writable s id) :
    ∃ s6, getOrCreateLinkedRecord s id name type args
        = (s6, .ok (clientIDFor id (formatStorageKey name args))) ∧
      mutGetValue s6 id (formatStorageKey name args)
        = some (.ref (clientIDFor id (formatStorageKey name args))) ∧
      entryGet s6.cache (clientIDFor id (formatStorageKey name args))
        = some (some (clientIDFor id (formatStorageKey name args))) := by
  have h1 := proxyGetLinkedRecord_null hnull
  have h2 := storeGet_cached_proxy hcache
  obtain ⟨hok, hval⟩ := mutSetValue_writable hw (formatStorageKey name args)
    (.ref (clientIDFor id (formatStorageKey name args)))
  have hc := cache_mutSetValue s id (formatStorageKey name args)
    (.ref (clientIDFor id (formatStorageKey name args)))
  cases hm : mutSetValue s id (formatStorageKey name args)
      (.ref (clientIDFor id (formatStorageKey name args))) with
  | mk s6 e =>
      rw [hm] at hok hval hc
      have he : e = none := hok
      subst he
      refine ⟨s6, ?_, hval, ?_⟩
      · unfold getOrCreateLinkedRecord
        simp only [h1, h2, hm]
      · rw [show s6.cache = s.cache from hc]
        exact hcache

/-- `getOrCreateLinkedRecord` on a field with no linked record creates a new
linked entity whose identity is derived deterministically from the parent
identity and the derived storage key, and links the field to it; setting
the field to null afterward does not delete the created entity; calling
`getOrCreateLinkedRecord` again returns the same proxy identity as before
and `getLinkedRecord` reflects that identity again. -/
theorem getOrCreateLinkedRecord_spec (s : Store) (id name type : String) (args : Args)
    (hnolink : mutGetLinkedRecordID s id (formatStorageKey name args) = none ∨
      mutGetLinkedRecordID s id (formatStorageKey name args) = some none)
    (hfresh : mutGetStatus s (clientIDFor id (formatStorageKey name args)) ≠ .existent)
    (hnocache : entryGet s.cache (clientIDFor id (formatStorageKey name args)) = none)
    (hw : Writable s id) :
    ∃ s4 s5 s6,
      getOrCreateLinkedRecord s id name type args
        = (s4, .ok (clientIDFor id (formatStorageKey name args))) ∧
      mutGetStatus s4 (clientIDFor id (formatStorageKey name args)) = .existent ∧
      mutGetValue s4 id (formatStorageKey name args)
        = some (.ref (clientIDFor id (formatStorageKey name args))) ∧
      proxySetValue s4 id (.scalar .null) name args = (s5, none) ∧
      mutGetStatus s5 (clientIDFor id (formatStorageKey name args)) = .existent ∧
      getOrCreateLinkedRecord s5 id name type args
        = (s6, .ok (clientIDFor id (formatStorageKey name args))) ∧
      (proxyGetLinkedRecord s6 id name args).2
        = .proxy (clientIDFor id (formatStorageKey name args)) := by
  have hne : clientIDFor id (formatStorageKey name args) ≠ id :=
    clientIDFor_ne id (formatStorageKey name args)
  obtain ⟨s4, hgoc1, hv4, hstat4, hcache4, hsink4⟩ :=
    goc_first hnolink hfresh hnocache hw
  have hw4 : Writable s4 id := Or.inl hsink4
  obtain ⟨hok5, hval5⟩ := mutSetValue_writable hw4 (formatStorageKey name args)
    (.scalar .null)
  have hps : proxySetValue s4 id (.scalar .null) name args
      = ((mutSetValue s4 id (formatStorageKey name args) (.scalar .null)).1, none) := by
    show mutSetValue s4 id (formatStorageKey name args) (.scalar .null) = _
    rw [← hok5]
  have hstat5 : mutGetStatus
      (mutSetValue s4 id (formatStorageKey name args) (.scalar .null)).1
      (clientIDFor id (formatStorageKey name args)) = .existent := by
    rw [mutSetValue_status_other _ _ (Ne.symm hne)]
    exact hstat4
  have hnull5 := linkedID_of_getValue_null hval5
  have hcache5 : entryGet
      (mutSetValue s4 id (formatStorageKey name args) (.scalar .null)).1.cache
      (clientIDFor id (formatStorageKey name args))
      = some (some (clientIDFor id (formatStorageKey name args))) := by
    rw [cache_mutSetValue]
    exact hcache4
  have hw5 : Writable (mutSetValue s4 id (formatStorageKey name args) (.scalar .null)).1 id :=
    Or.inl (mutSetValue_writable_sink hw4 (formatStorageKey name args) (.scalar .null))
  obtain ⟨s6, hgoc2, hval6, hcache6⟩ := goc_relink hnull5 hcache5 hw5
  refine ⟨s4, _, s6, hgoc1, hstat4, hv4, hps, hstat5, hgoc2, ?_⟩
  rw [proxyGetLinkedRecord_ref (linkedID_of_getValue_ref hval6),
    storeGet_cached_proxy hcache6]

theorem getOrCreateLinkedRecord_spec_witness :
    (mutGetLinkedRecordID initialStore "660361306" (formatStorageKey "hometown" []) = none ∨
      mutGetLinkedRecordID initialStore "660361306" (formatStorageKey "hometown" [])
        = some none) ∧
    mutGetStatus initialStore (clientIDFor "660361306" (formatStorageKey "hometown" []))
      ≠ .existent ∧
    entryGet initialStore.cache
      (clientIDFor "660361306" (formatStorageKey "hometown" [])) = none ∧
    Writable initialStore "660361306" ∧
    (∃ s4 s5 s6,
      getOrCreateLinkedRecord initialStore "660361306" "hometown" "Page" []
        = (s4, .ok (clientIDFor "660361306" (formatStorageKey "hometown" []))) ∧
      mutGetStatus s4 (clientIDFor "660361306" (formatStorageKey "hometown" []))
        = .existent ∧
      mutGetValue s4 "660361306" (formatStorageKey "hometown" [])
        = some (.ref (clientIDFor "660361306" (formatStorageKey "hometown" []))) ∧
      proxySetValue s4 "660361306" (.scalar .null) "hometown" [] = (s5, none) ∧
      mutGetStatus s5 (clientIDFor "660361306" (formatStorageKey "hometown" []))
        = .existent ∧
      getOrCreateLinkedRecord s5 "660361306" "hometown" "Page" []
        = (s6, .ok (clientIDFor "660361306" (formatStorageKey "hometown" []))) ∧
      (proxyGetLinkedRecord s6 "660361306" "hometown" []).2
        = .proxy (clientIDFor "660361306" (formatStorageKey "hometown" []))) :=
  ⟨Or.inl (by decide), by decide, by decide, Or.inr ⟨recGreg, by decide⟩,
    getOrCreateLinkedRecord_spec initialStore "660361306" "hometown" "Page" []
      (Or.inl (by decide)) (by decide) (by decide) (Or.inr ⟨recGreg, by decide⟩)⟩

theorem create_after_tombstone_witness :
    rsGet (storeGet initialStore "deleted").1.sink "deleted" = none ∧
    rsGet (storeGet initialStore "deleted").1.base "deleted" = some none ∧
    (storeGet initialStore "deleted").2 = .nullRec ∧
    (mutGetStatus (storeGet initialStore "deleted").1 "deleted" = .nonexistent ∧
      (storeCreate (storeGet initialStore "deleted").1 "deleted" "User").2
        = .ok (.proxy "deleted") ∧
      (storeGet (storeCreate (storeGet initialStore "deleted").1 "deleted" "User").1
          "deleted").2 = .proxy "deleted") :=
  ⟨by decide, by decide, by decide,
    create_after_tombstone (storeGet initialStore "deleted").1 "deleted" "User"
      (by decide) (by decide)⟩

/-- Modelled from the spec: the Field Payload descriptor a handler's
`update` receives. -/
structure FieldPayload where
  args : Args
  dataID : String
  fieldKey : String
  handle : String
  handleKey : String
deriving DecidableEq, Repr

mutual

/-- Modelled from the spec: the operation's selection shape against which a
raw response is normalized — scalar fields and linked (entity) fields, each
with canonical arguments and an optional handle annotation. -/
inductive Selection where
  | scalarField (name : String) (args : Args) (handle : Option String)
  | linkedField (name : String) (args : Args) (handle : Option String)
      (children : SelectionList)

/-- A list of selections (spelled out so the mutual recursion is
structural). -/
inductive SelectionList where
  | nil
  | cons (head : Selection) (tail : SelectionList)

end

/-- Modelled from the spec: a raw response payload value — a scalar leaf or
a nested entity object with its field mapping. -/
inductive Payload where
  | pscalar (v : Scalar)
  | pentity (typename : String) (fields : List (String × Payload))

/-- Modelled from the spec: the injected `getDataID` function — from an
entity's field data and type name to its identity. -/
abbrev GetDataID : Type := List (String × Payload) → String → String

/-- Modelled from the spec: a handler implementation, polymorphic over the
single capability `update`. -/
structure Handler where
  update : Store → FieldPayload → Store

/-- Instrumentation of `commitPayload`: the observable calls it makes — one
`idCall` per entity object passed to `getDataID` (with its result), and one
`handlerCall` per Field Payload dispatched to a handler. -/
inductive NormEvent where
  | idCall (fields : List (String × Payload)) (typename : String) (result : String)
  | handlerCall (fp : FieldPayload)

/-- The `getDataID` invocations in an event trace, in order. -/
def idCallsOf : List NormEvent → List (List (String × Payload) × String × String)
  | [] => []
  | .idCall f t r :: rest => (f, t, r) :: idCallsOf rest
  | .handlerCall _ :: rest => idCallsOf rest

/-- The handler invocations in an event trace, in order. -/
def handlerCallsOf : List NormEvent → List FieldPayload
  | [] => []
  | .idCall _ _ _ :: rest => handlerCallsOf rest
  | .handlerCall fp :: rest => fp :: handlerCallsOf rest

/-- Modelled from the spec: the Field Payload of one handle-annotated field
— `fieldKey` is the derived storage key and `handleKey` the derived
client-only key for the handle's output. -/
def ownHandlePayload (dataID name : String) (args : Args) : Option String → List FieldPayload
  | none => []
  | some hn =>
      [{ args := args, dataID := dataID, fieldKey := formatStorageKey name args,
         handle := hn, handleKey := "__" ++ name ++ "_" ++ hn }]

/-- The handler events a field's own handle annotation contributes. -/
def handleEventOf (dataID name : String) (args : Args) (h : Option String) :
    List NormEvent :=
  (ownHandlePayload dataID name args h).map .handlerCall

/-- Modelled from the spec: the store state after one matched entity is
instantiated and linked — the entity's identity (computed by `getDataID`)
is created through the proxy if not yet Existent, then the parent's field
is linked to it. -/
def linkedChildStore (g : GetDataID) (dataID name : String) (args : Args)
    (tn : String) (efields : List (String × Payload)) (s : Store) : Store :=
  (mutSetValue
    (if mutGetStatus s (g efields tn) = .existent then s
     else (storeCreate s (g efields tn) tn).1)
    dataID (formatStorageKey name args) (.ref (g efields tn))).1

mutual

/-- Modelled from the spec: normalization of one selected field of the
entity currently being written at `dataID`.  A scalar field writes its
payload value through the Mutator; a linked field computes the child
entity's identity via `getDataID` (once per entity object), creates the
identity through the proxy if it is not yet Existent, links the field, and
recurses into the child selections; a null link writes null.  Handle
annotations contribute handler events after the field is normalized. -/
def normalizeSel (g : GetDataID) (dataID : String) (sel : Selection)
    (pfields : List (String × Payload)) (s : Store) : Store × List NormEvent :=
  match sel with
  | .scalarField name args h =>
      match entryGet pfields name with
      | some (.pscalar v) =>
          ((mutSetValue s dataID (formatStorageKey name args) (.scalar v)).1,
            handleEventOf dataID name args h)
      | _ => (s, [])
  | .linkedField name args h children =>
      match entryGet pfields name with
      | some (.pentity tn efields) =>
          match normalizeList g (g efields tn) children efields
              (linkedChildStore g dataID name args tn efields s) with
          | (s3, evs) =>
              (s3, .idCall efields tn (g efields tn)
                :: (evs ++ handleEventOf dataID name args h))
      | some (.pscalar .null) =>
          ((mutSetValue s dataID (formatStorageKey name args) (.scalar .null)).1,
            handleEventOf dataID name args h)
      | _ => (s, [])

/-- Normalization of a selection list, threading the store left to right
and concatenating the event traces. -/
def normalizeList (g : GetDataID) (dataID : String) (sels : SelectionList)
    (pfields : List (String × Payload)) (s : Store) : Store × List NormEvent :=
  match sels with
  | .nil => (s, [])
  | .cons sel rest =>
      match normalizeSel g dataID sel pfields s with
      | (s1, e1) =>
          match normalizeList g dataID rest pfields s1 with
          | (s2, e2) => (s2, e1 ++ e2)

end

/-- Modelled from the spec: after normalization, each handler event
dispatches exactly one `update` call to the handler the injected provider
registers for its handle name, passing the store proxy and the Field
Payload. -/
def applyHandlers (provider : String → Option Handler) (s : Store) :
    List NormEvent → Store
  | [] => s
  | .handlerCall fp :: rest =>
      match provider fp.handle with
      | some h => applyHandlers provider (h.update s fp) rest
      | none => applyHandlers provider s rest
  | .idCall _ _ _ :: rest => applyHandlers provider s rest

/-- Modelled from the spec: `commitPayload` normalizes the raw response
against the operation's selection shape starting at the root identity,
then invokes the registered handlers; the event trace records the
`getDataID` and handler invocations. -/
def commitPayload (g : GetDataID) (provider : String → Option Handler)
    (sels : SelectionList) (pfields : List (String × Payload)) (s : Store) :
    Store × List NormEvent :=
  match normalizeList g ROOT_ID sels pfields s with
  | (s1, evs) => (applyHandlers provider s1 evs, evs)

mutual

/-- The entity objects a selection matches in a payload (each occurrence is
one distinct entity object of the response), with their type names. -/
def entityOccurrencesSel (sel : Selection) (pfields : List (String × Payload)) :
    List (List (String × Payload) × String) :=
  match sel with
  | .scalarField _ _ _ => []
  | .linkedField name _ _ children =>
      match entryGet pfields name with
      | some (.pentity tn efields) => (efields, tn) :: entityOccurrencesList children efields
      | _ => []

/-- Entity occurrences of a selection list. -/
def entityOccurrencesList (sels : SelectionList) (pfields : List (String × Payload)) :
    List (List (String × Payload) × String) :=
  match sels with
  | .nil => []
  | .cons sel rest =>
      entityOccurrencesSel sel pfields ++ entityOccurrencesList rest pfields

end

mutual

/-- The Field Payloads the handle annotations of a selection produce on a
payload — one per selected handle-annotated field present in the response,
with dataID, fieldKey, handle, handleKey and args derived from the
selection. -/
def handlePayloadsSel (g : GetDataID) (dataID : String) (sel : Selection)
    (pfields : List (String × Payload)) : List FieldPayload :=
  match sel with
  | .scalarField name args h =>
      match entryGet pfields name with
      | some (.pscalar _) => ownHandlePayload dataID name args h
      | _ => []
  | .linkedField name args h children =>
      match entryGet pfields name with
      | some (.pentity tn efields) =>
          handlePayloadsList g (g efields tn) children efields
            ++ ownHandlePayload dataID name args h
      | some (.pscalar .null) => ownHandlePayload dataID name args h
      | _ => []

/-- Field Payloads of a selection list. -/
def handlePayloadsList (g : GetDataID) (dataID : String) (sels : SelectionList)
    (pfields : List (String × Payload)) : List FieldPayload :=
  match sels with
  | .nil => []
  | .cons sel rest =>
      handlePayloadsSel g dataID sel pfields ++ handlePayloadsList g dataID rest pfields

end

theorem idCallsOf_append (l1 l2 : List NormEvent) :
    idCallsOf (l1 ++ l2) = idCallsOf l1 ++ idCallsOf l2 := by
  induction l1 with
  | nil => rfl
  | cons e rest ih => cases e <;> simp [idCallsOf, ih]

theorem handlerCallsOf_append (l1 l2 : List NormEvent) :
    handlerCallsOf (l1 ++ l2) = handlerCallsOf l1 ++ handlerCallsOf l2 := by
  induction l1 with
  | nil => rfl
  | cons e rest ih => cases e <;> simp [handlerCallsOf, ih]

theorem idCallsOf_handleEventOf (dataID name : String) (args : Args) (h : Option String) :
    idCallsOf (handleEventOf dataID name args h) = [] := by
  cases h <;> rfl

theorem handlerCallsOf_handleEventOf (dataID name : String) (args : Args)
    (h : Option String) :
    handlerCallsOf (handleEventOf dataID name args h) = ownHandlePayload dataID name args h := by
  cases h <;> rfl

mutual

theorem normCalls_sel (g : GetDataID) (dataID : String) (sel : Selection)
    (pfields : List (String × Payload)) (s : Store) :
    idCallsOf (normalizeSel g dataID sel pfields s).2
      = (entityOccurrencesSel sel pfields).map (fun et => (et.1, et.2, g et.1 et.2)) ∧
    handlerCallsOf (normalizeSel g dataID sel pfields s).2
      = handlePayloadsSel g dataID sel pfields := by
  cases sel with
  | scalarField name args h =>
      unfold normalizeSel entityOccurrencesSel handlePayloadsSel
      cases hp : entryGet pfields name with
      | none => exact ⟨rfl, rfl⟩
      | some p =>
          cases p with
          | pscalar v =>
              exact ⟨by simp [idCallsOf_handleEventOf],
                by simp [handlerCallsOf_handleEventOf]⟩
          | pentity tn efields => exact ⟨rfl, rfl⟩
  | linkedField name args h children =>
      unfold normalizeSel entityOccurrencesSel handlePayloadsSel
      cases hp : entryGet pfields name with
      | none => exact ⟨rfl, rfl⟩
      | some p =>
          cases p with
          | pscalar v =>
              cases v with
              | null =>
                  exact ⟨by simp [idCallsOf_handleEventOf],
                    by simp [handlerCallsOf_handleEventOf]⟩
              | str s0 => exact ⟨rfl, rfl⟩
              | int n => exact ⟨rfl, rfl⟩
              | bool b => exact ⟨rfl, rfl⟩
          | pentity tn efields =>
              have hI := normCalls_list g (g efields tn) children efields
                (linkedChildStore g dataID name args tn efields s)
              cases hn : normalizeList g (g efields tn) children efields
                  (linkedChildStore g dataID name args tn efields s) with
              | mk s3 evs =>
                  rw [hn] at hI
                  constructor
                  · simp [hn, idCallsOf, idCallsOf_append, idCallsOf_handleEventOf, hI.1]
                  · simp [hn, handlerCallsOf, handlerCallsOf_append,
                      handlerCallsOf_handleEventOf, hI.2]

theorem normCalls_list (g : GetDataID) (dataID : String) (sels : SelectionList)
    (pfields : List (String × Payload)) (s : Store) :
    idCallsOf (normalizeList g dataID sels pfields s).2
      = (entityOccurrencesList sels pfields).map (fun et => (et.1, et.2, g et.1 et.2)) ∧
    handlerCallsOf (normalizeList g dataID sels pfields s).2
      = handlePayloadsList g dataID sels pfields := by
  cases sels with
  | nil => exact ⟨rfl, rfl⟩
  | cons sel rest =>
      have hS := normCalls_sel g dataID sel pfields s
      cases hn1 : normalizeSel g dataID sel pfields s with
      | mk s1 e1 =>
          rw [hn1] at hS
          have hR := normCalls_list g dataID rest pfields s1
          cases hn2 : normalizeList g dataID rest pfields s1 with
          | mk s2 e2 =>
              rw [hn2] at hR
              constructor
              · simp [normalizeList, entityOccurrencesList, handlePayloadsList,
                  hn1, hn2, idCallsOf_append, hS.1, hR.1]
              · simp [normalizeList, entityOccurrencesList, handlePayloadsList,
                  hn1, hn2, handlerCallsOf_append, hS.2, hR.2]

end

theorem storeGet_status (s : Store) (id id' : String) :
    mutGetStatus (storeGet s id).1 id' = mutGetStatus s id' := by
  unfold storeGet
  split
  · rfl
  · rfl
  · split <;> rfl

theorem mutSetValue_preserves_existent {s : Store} {id' : String}
    (h : mutGetStatus s id' = .existent) (id key : String) (v : Value) :
    mutGetStatus (mutSetValue s id key v).1 id' = .existent := by
  by_cases hid : id = id'
  · subst hid
    unfold mutSetValue
    split
    next e heq => exact h
    next s2 r2 heq =>
        simp [mutGetStatus, setBackupSentinel, rsGet_rsSet_same, recordStatus]
  · rw [mutSetValue_status_other key v hid]
    exact h

theorem storeCreate_preserves_existent {s : Store} {id' : String}
    (h : mutGetStatus s id' = .existent) (id type : String) :
    mutGetStatus (storeCreate s id type).1 id' = .existent := by
  by_cases hex : mutGetStatus s id = .existent
  · rw [storeCreate_duplicate type hex]
    exact h
  · rw [storeCreate_closed type hex]
    by_cases hid : id = id'
    · subst hid
      simp [mutGetStatus, rsGet_rsSet_same, recordStatus]
    · show mutGetStatus
          ({ base := s.base,
             sink := rsSet s.sink id (some { id := id, typename := type, fields := [] }),
             backup := s.backup,
             cache := entrySet (entryRemove s.cache id) id (some id) } : Store) id'
          = .existent
      rw [mutGetStatus_congr (s := s)
          (t :=
            { base := s.base,
              sink := rsSet s.sink id (some { id := id, typename := type, fields := [] }),
              backup := s.backup,
              cache := entrySet (entryRemove s.cache id) id (some id) })
          (rsGet_rsSet_ne _ hid _) rfl]
      exact h

theorem ensure_existent (s : Store) (id type : String) :
    mutGetStatus (if mutGetStatus s id = .existent then s else (storeCreate s id type).1)
      id = .existent := by
  split
  next hex => exact hex
  next hne =>
      rw [storeCreate_closed type hne]
      simp [mutGetStatus, rsGet_rsSet_same, recordStatus]

theorem ensure_preserves_existent {s : Store} {id' : String}
    (h : mutGetStatus s id' = .existent) (id type : String) :
    mutGetStatus (if mutGetStatus s id = .existent then s else (storeCreate s id type).1)
      id' = .existent := by
  split
  · exact h
  · exact storeCreate_preserves_existent h id type

theorem linkedChildStore_target (g : GetDataID) (dataID name : String) (args : Args)
    (tn : String) (efields : List (String × Payload)) (s : Store) :
    mutGetStatus (linkedChildStore g dataID name args tn efields s) (g efields tn)
      = .existent :=
  mutSetValue_preserves_existent (ensure_existent s (g efields tn) tn) dataID
    (formatStorageKey name args) (.ref (g efields tn))

theorem linkedChildStore_preserves_existent {s : Store} {id' : String}
    (h : mutGetStatus s id' = .existent) (g : GetDataID) (dataID name : String)
    (args : Args) (tn : String) (efields : List (String × Payload)) :
    mutGetStatus (linkedChildStore g dataID name args tn efields s) id' = .existent :=
  mutSetValue_preserves_existent (ensure_preserves_existent h (g efields tn) tn) dataID
    (formatStorageKey name args) (.ref (g efields tn))

mutual

theorem mono_normalizeSel {s : Store} {id' : String}
    (h : mutGetStatus s id' = .existent) (g : GetDataID) (dataID : String)
    (sel : Selection) (pfields : List (String × Payload)) :
    mutGetStatus (normalizeSel g dataID sel pfields s).1 id' = .existent := by
  cases sel with
  | scalarField name args hh =>
      unfold normalizeSel
      cases hp : entryGet pfields name with
      | none => exact h
      | some p =>
          cases p with
          | pscalar v => exact mutSetValue_preserves_existent h ..
          | pentity tn efields => exact h
  | linkedField name args hh children =>
      unfold normalizeSel
      cases hp : entryGet pfields name with
      | none => exact h
      | some p =>
          cases p with
          | pscalar v =>
              cases v with
              | null => exact mutSetValue_preserves_existent h ..
              | str s0 => exact h
              | int n => exact h
              | bool b => exact h
          | pentity tn efields =>
              have hI := mono_normalizeList
                (linkedChildStore_preserves_existent h g dataID name args tn efields)
                g (g efields tn) children efields
              cases hn : normalizeList g (g efields tn) children efields
                  (linkedChildStore g dataID name args tn efields s) with
              | mk s3 evs =>
                  rw [hn] at hI
                  simp only [hn]
                  exact hI

theorem mono_normalizeList {s : Store} {id' : String}
    (h : mutGetStatus s id' = .existent) (g : GetDataID) (dataID : String)
    (sels : SelectionList) (pfields : List (String × Payload)) :
    mutGetStatus (normalizeList g dataID sels pfields s).1 id' = .existent := by
  cases sels with
  | nil => exact h
  | cons sel rest =>
      have hS := mono_normalizeSel h g dataID sel pfields
      cases hn1 : normalizeSel g dataID sel pfields s with
      | mk s1 e1 =>
          rw [hn1] at hS
          have hR := mono_normalizeList hS g dataID rest pfields
          cases hn2 : normalizeList g dataID rest pfields s1 with
          | mk s2 e2 =>
              rw [hn2] at hR
              have hgoal : (normalizeList g dataID (.cons sel rest) pfields s).1 = s2 := by
                simp [normalizeList, hn1, hn2]
              rw [hgoal]
              exact hR

end

mutual

theorem occExistent_sel (g : GetDataID) (dataID : String) (sel : Selection)
    (pfields : List (String × Payload)) (s : Store) :
    ∀ et ∈ entityOccurrencesSel sel pfields,
      mutGetStatus (normalizeSel g dataID sel pfields s).1 (g et.1 et.2) = .existent := by
  cases sel with
  | scalarField name args hh =>
      intro et het
      exact absurd het (by simp [entityOccurrencesSel])
  | linkedField name args hh children =>
      unfold normalizeSel entityOccurrencesSel
      cases hp : entryGet pfields name with
      | none => intro et het; exact absurd het (by simp)
      | some p =>
          cases p with
          | pscalar v =>
              cases v with
              | null => intro et het; exact absurd het (by simp)
              | str s0 => intro et het; exact absurd het (by simp)
              | int n => intro et het; exact absurd het (by simp)
              | bool b => intro et het; exact absurd het (by simp)
          | pentity tn efields =>
              cases hn : normalizeList g (g efields tn) children efields
                  (linkedChildStore g dataID name args tn efields s) with
              | mk s3 evs =>
                  intro et het
                  simp only [hn]
                  have het' : et = (efields, tn) ∨
                      et ∈ entityOccurrencesList children efields := by
                    simpa using het
                  rcases het' with heq | hmem
                  · subst heq
                    have hI := mono_normalizeList
                      (linkedChildStore_target g dataID name args tn efields s)
                      g (g efields tn) children efields
                    rw [hn] at hI
                    exact hI
                  · have hI := occExistent_list g (g efields tn) children efields
                      (linkedChildStore g dataID name args tn efields s) et hmem
                    rw [hn] at hI
                    exact hI

theorem occExistent_list (g : GetDataID) (dataID : String) (sels : SelectionList)
    (pfields : List (String × Payload)) (s : Store) :
    ∀ et ∈ entityOccurrencesList sels pfields,
      mutGetStatus (normalizeList g dataID sels pfields s).1 (g et.1 et.2) = .existent := by
  cases sels with
  | nil =>
      intro et het
      exact absurd het (by simp [entityOccurrencesList])
  | cons sel rest =>
      intro et het
      have het' : et ∈ entityOccurrencesSel sel pfields ∨
          et ∈ entityOccurrencesList rest pfields := by
        simpa [entityOccurrencesList] using het
      cases hn1 : normalizeSel g dataID sel pfields s with
      | mk s1 e1 =>
          cases hn2 : normalizeList g dataID rest pfields s1 with
          | mk s2 e2 =>
              have hgoal : (normalizeList g dataID (.cons sel rest) pfields s).1 = s2 := by
                simp [normalizeList, hn1, hn2]
              rw [hgoal]
              rcases het' with hmem | hmem
              · have hS := occExistent_sel g dataID sel pfields s et hmem
                rw [hn1] at hS
                have hR := mono_normalizeList hS g dataID rest pfields
                rw [hn2] at hR
                exact hR
              · have hR := occExistent_list g dataID rest pfields s1 et hmem
                rw [hn2] at hR
                exact hR

end

/-- During `commitPayload`, the injected `getDataID` function is invoked
exactly once per distinct entity object matched in the payload (not once
per field) — the call trace lists each matched entity exactly once, with
its field data and type name — and every returned identity is Existent in
the normalized store; and for every selected field carrying a handle, a
handler update is dispatched exactly once, with a Field Payload whose
dataID, fieldKey, handle, handleKey and args are derived from the
selection as the spec prescribes. -/
theorem commitPayload_spec (g : GetDataID) (provider : String → Option Handler)
    (sels : SelectionList) (pfields : List (String × Payload)) (s : Store) :
    idCallsOf (commitPayload g provider sels pfields s).2
      = (entityOccurrencesList sels pfields).map (fun et => (et.1, et.2, g et.1 et.2)) ∧
    handlerCallsOf (commitPayload g provider sels pfields s).2
      = handlePayloadsList g ROOT_ID sels pfields ∧
    (entityOccurrencesList sels pfields).all (fun et =>
        decide (mutGetStatus (normalizeList g ROOT_ID sels pfields s).1 (g et.1 et.2)
          = .existent)) = true := by
  have hev : (commitPayload g provider sels pfields s).2
      = (normalizeList g ROOT_ID sels pfields s).2 := by
    unfold commitPayload
    split
    next s1 evs hn => rw [hn]
  obtain ⟨h1, h2⟩ := normCalls_list g ROOT_ID sels pfields s
  refine ⟨?_, ?_, ?_⟩
  · rw [hev]
    exact h1
  · rw [hev]
    exact h2
  · rw [List.all_eq_true]
    intro et het
    exact decide_eq_true (occExistent_list g ROOT_ID sels pfields s et het)

end Relay
